import Mathlib

/-!
# Room/session coordinator of the flag quiz server

A shallow embedding of `internals/multiplayer.go`, `internals/websocket.go`,
`internals/utils.go` and `internals/game/models.go`.

* Go maps are association lists; `len`, lookup, `delete` and assignment are
  `mapLen`, `mapGet`, `mapDelete` and `mapSet`.  A `range` loop visits the
  entries in list order (Go leaves the order unspecified; every statement below
  holds for every order because it quantifies over all lists).
* Pointers (`*websocket.Conn`, `*game.Player`, `*game.Room`) are natural-number
  addresses; the objects behind player and room pointers live in explicit heaps.
* Go `int` values are `Int`.
* Every `conn.WriteJSON` may fail; its outcome is read from a delivery table that
  is a parameter of each operation, and every write attempt and every
  `conn.Close()` is recorded in a list of effects.
* Handlers are modelled as atomic steps (one goroutine at a time).
-/

namespace Flags

/-! ## Go maps -/

/-- Go `m[k]` with the comma-ok form: the value stored under `k`, if any. -/
def mapGet {κ ν : Type} [DecidableEq κ] (m : List (κ × ν)) (k : κ) : Option ν :=
  match m with
  | [] => none
  | (k0, v) :: rest => if k0 = k then some v else mapGet rest k

/-- Go `delete(m, k)`. -/
def mapDelete {κ ν : Type} [DecidableEq κ] (m : List (κ × ν)) (k : κ) : List (κ × ν) :=
  m.filter (fun e => decide (e.1 ≠ k))

/-- Go `m[k] = v`: replaces the value of an existing key, otherwise adds the entry. -/
def mapSet {κ ν : Type} [DecidableEq κ] (m : List (κ × ν)) (k : κ) (v : ν) : List (κ × ν) :=
  match m with
  | [] => [(k, v)]
  | (k0, v0) :: rest => if k0 = k then (k, v) :: rest else (k0, v0) :: mapSet rest k v

/-- Go `len(m)`. -/
def mapLen {κ ν : Type} (m : List (κ × ν)) : Int := (m.length : Int)

/-- The keys of a map, in iteration order. -/
def mapKeys {κ ν : Type} (m : List (κ × ν)) : List κ := m.map Prod.fst

/-! ## Data model (`internals/game/models.go`) -/

/-- Address of a `websocket.Conn`. -/
abbrev ConnRef := Nat
/-- Address of a `game.Player`. -/
abbrev PlayerRef := Nat
/-- Address of a `game.Room`. -/
abbrev RoomRef := Nat

/-- The struct `game.Question`. -/
structure Question where
  FlagURL : String
  Options : List String
  Answer : String
  deriving DecidableEq, Repr, Inhabited

/-- The struct `game.Player`. -/
structure Player where
  ID : String
  Username : String
  Score : Int
  Completed : Bool
  Conn : ConnRef
  deriving DecidableEq, Repr, Inhabited

/-- The struct `game.Room`.  `Questions` is `none` for a nil map. -/
structure Room where
  Code : String
  Hostname : String
  Players : List (ConnRef × PlayerRef)
  Questions : Option (List (String × Question))
  Start : Bool
  TimeLimit : Int
  GameMode : String
  deriving DecidableEq, Repr, Inhabited

/-- The struct `game.CreateRoomRequest`. -/
structure CreateRoomRequest where
  TimeLimit : Int
  NumQuestions : Int
  GameType : String
  deriving DecidableEq, Repr, Inhabited

/-- Go `len(room.Questions)`; the length of a nil map is 0. -/
def Room.numQuestions (room : Room) : Int :=
  match room.Questions with
  | none => 0
  | some qs => mapLen qs

/-- Go `room.Questions[key]` with the comma-ok form; a nil map has no entry. -/
def Room.question (room : Room) (key : String) : Option Question :=
  match room.Questions with
  | none => none
  | some qs => mapGet qs key

/-- Process state: the global `rooms` map and the objects behind the room and
player pointers.  `nextRoom` and `nextPlayer` are the next addresses the
allocator hands out. -/
structure Server where
  rooms : List (String × RoomRef)
  roomHeap : RoomRef → Room
  playerHeap : PlayerRef → Player
  nextRoom : RoomRef
  nextPlayer : PlayerRef

/-- State at process start: `rooms = make(map[string]*game.Room)`. -/
def Server.start : Server :=
  { rooms := [], roomHeap := fun _ => default, playerHeap := fun _ => default,
    nextRoom := 0, nextPlayer := 0 }

/-! ## Outbound messages and effects -/

/-- A value of the `data` map built by `getQuestion`. -/
inductive Value where
  | str (s : String)
  | strs (l : List String)
  deriving DecidableEq, Repr

/-- The JSON messages the server writes to a connection. -/
inductive Msg where
  | error (text : String)
  | playerJoined (username : String) (score : Int) (id : String)
  | playerLeft (username : String) (id : String)
  | countdown (i : Int)
  | gameStarted
  | time_over
  | new_question (data : List (String × Value))
  | answer_result (correct_answer : String) (chosen_answer : String)
  | score (username : String) (score : Int)
  | finished_game (username : String)
  | all_players_finished
  deriving DecidableEq, Repr

/-- Observable actions on connections: a `WriteJSON` attempt with its outcome,
and a `Close`. -/
inductive Effect where
  | write (conn : ConnRef) (msg : Msg) (delivered : Bool)
  | close (conn : ConnRef)
  deriving DecidableEq, Repr

/-! ## HTTP layer (`internals/multiplayer.go`) -/

/-- An entry of `getSerializablePlayers`. -/
structure PlayerSummary where
  id : String
  username : String
  score : Int
  deriving DecidableEq, Repr

/-- The JSON object returned by the create, join and get handlers; `start` and
`gamemode` are absent from some of them. -/
structure RoomSummary where
  code : String
  host : String
  players : List PlayerSummary
  start : Option Bool
  timeLimit : Int
  numQuestions : Int
  gamemode : Option String
  deriving DecidableEq, Repr

/-- An HTTP response: an error status with its text, or 200 with a room summary. -/
inductive Response where
  | failure (status : Nat) (error : String)
  | success (summary : RoomSummary)
  deriving DecidableEq, Repr

/-- The HTTP status code of a response. -/
def Response.status : Response → Nat
  | .failure st _ => st
  | .success _ => 200

/-- `generateRoomID`: `strconv.Itoa(rng.Intn(10000))`, where `draw` is the value
the time-seeded generator produces. -/
def generateRoomID (draw : Nat) : String := toString (draw % 10000)

/-- `generatePlayerID`: `strconv.Itoa(rng.Intn(10000))`. -/
def generatePlayerID (draw : Nat) : String := toString (draw % 10000)

/-- `ValidateCreateRoomRequest`: `none` is the nil error. -/
def ValidateCreateRoomRequest (req : CreateRoomRequest) : Option String :=
  if req.TimeLimit < 3 ∨ req.TimeLimit > 10 then
    some "time limit must be between 3 and 10 minutes"
  else if req.NumQuestions < 10 ∨ req.NumQuestions > 25 then
    some "number of questions must be between 10 and 25"
  else if req.GameType = "" then
    some "game type is required"
  else none

/-- `getSerializablePlayers`. -/
def getSerializablePlayers (heap : PlayerRef → Player) (room : Room) : List PlayerSummary :=
  room.Players.map (fun e =>
    { id := (heap e.2).ID, username := (heap e.2).Username, score := (heap e.2).Score })

/-- The loop `for i, q := range questions { room.Questions[strconv.Itoa(i)] = &q }`
of `createRoomHandler`, started at index `i` (the loop variable is taken per
iteration, as in Go 1.22 and later). -/
def storeQuestions (i : Nat) (questions : List Question) (m : List (String × Question)) :
    List (String × Question) :=
  match questions with
  | [] => m
  | q :: rest => storeQuestions (i + 1) rest (mapSet m (toString i) q)

/-- What `createRoomHandler` reads from the HTTP request: the method and the
decoded body (`none` when `json.Decode` fails), a `CreateRoomRequest` with the
extra `hostUsername` field. -/
structure CreateRoomCall where
  method : String
  body : Option (CreateRoomRequest × String)
  deriving DecidableEq, Repr

/-- `createRoomHandler`.  `gen` is `generateQuestions` (it reads the country file
and draws random numbers) and `draw` is the number drawn by `generateRoomID`. -/
def createRoomHandler (gen : Int → String → Except String (List Question)) (draw : Nat)
    (s : Server) (call : CreateRoomCall) : Server × Response :=
  if call.method ≠ "POST" then (s, .failure 405 "Invalid method") else
  match call.body with
  | none => (s, .failure 400 "Invalid JSON format")
  | some (req, hostUsername) =>
    match ValidateCreateRoomRequest req with
    | some err => (s, .failure 400 err)
    | none =>
      if mapLen s.rooms ≥ 10 then
        (s, .failure 403 "Maximum number of rooms (10) reached. Cannot create more rooms.")
      else if hostUsername = "" then (s, .failure 400 "Host username is required")
      else
        match gen req.NumQuestions req.GameType with
        | .error e => (s, .failure 500 ("Failed to generate questions: " ++ e))
        | .ok questions =>
          let roomID := generateRoomID draw
          let room : Room :=
            { Code := roomID, Hostname := hostUsername, Players := [],
              Questions := some (storeQuestions 0 questions []), Start := false,
              TimeLimit := req.TimeLimit, GameMode := req.GameType }
          let ref := s.nextRoom
          ({ s with rooms := mapSet s.rooms roomID ref,
                    roomHeap := Function.update s.roomHeap ref room,
                    nextRoom := ref + 1 },
           .success
            { code := room.Code, host := room.Hostname,
              players := getSerializablePlayers s.playerHeap room,
              start := some room.Start, timeLimit := room.TimeLimit,
              numQuestions := (questions.length : Int), gamemode := some room.GameMode })

/-- What `joinRoomHandler` reads from the HTTP request. -/
structure JoinRoomCall where
  method : String
  body : Option (String × String)
  deriving DecidableEq, Repr

/-- `joinRoomHandler`: a read-only check, it never writes to `rooms` or to a
room.  `body` holds the decoded `username` and `roomID`; `equalFold` is the
library function `strings.EqualFold`. -/
def joinRoomHandler (equalFold : String → String → Bool) (s : Server) (call : JoinRoomCall) :
    Response :=
  if call.method ≠ "POST" then .failure 405 "Invalid method" else
  match call.body with
  | none => .failure 400 "Invalid JSON format"
  | some (username, roomID) =>
    if username = "" ∨ username.utf8ByteSize < 4 ∨ username.utf8ByteSize > 20 then
      .failure 400 "Username must be between 4 and 20 characters"
    else if roomID = "" then .failure 400 "Room ID is required"
    else
      match mapGet s.rooms roomID with
      | none => .failure 404 "Room not found"
      | some ref =>
        let room := s.roomHeap ref
        if room.Start then .failure 401 "Game has already started. You cannot join now."
        else if mapLen room.Players ≥ 9 then
          .failure 404 "Room is full, only 9 members can join in one room"
        else if room.Players.any (fun e => equalFold (s.playerHeap e.2).Username username) then
          .failure 409
            ("Username '" ++ username ++ "' is already taken. Please choose another username.")
        else
          .success
            { code := room.Code, host := room.Hostname,
              players := getSerializablePlayers s.playerHeap room,
              start := none, timeLimit := room.TimeLimit,
              numQuestions := room.numQuestions, gamemode := none }

/-! ## Rooms and broadcasts (`internals/websocket.go`, `internals/utils.go`) -/

/-- Writes the player map of the room at address `room`. -/
def Server.setPlayers (s : Server) (room : RoomRef) (players : List (ConnRef × PlayerRef)) :
    Server :=
  { s with roomHeap :=
      Function.update s.roomHeap room { s.roomHeap room with Players := players } }

/-- One iteration of the loop of `broadcastToRoom` on the entry `e`: the current
player map and the effects so far are carried along. -/
def broadcastStep (ok : ConnRef → Bool) (msg : Msg)
    (acc : List (ConnRef × PlayerRef) × List Effect) (e : ConnRef × PlayerRef) :
    List (ConnRef × PlayerRef) × List Effect :=
  if ok e.1 then (acc.1, acc.2 ++ [Effect.write e.1 msg true])
  else (mapDelete acc.1 e.1, acc.2 ++ [Effect.write e.1 msg false, Effect.close e.1])

/-- `broadcastToRoom`: `ok conn` tells whether `conn.WriteJSON(message)` succeeds.
The loop ranges over the entries present when it starts; the only entry it
deletes is the one it is visiting. -/
def broadcastToRoom (ok : ConnRef → Bool) (s : Server) (room : RoomRef) (msg : Msg) :
    Server × List Effect :=
  let players := (s.roomHeap room).Players
  let out := players.foldl (broadcastStep ok msg) (players, [])
  (s.setPlayers room out.1, out.2)

/-- `removePlayerFromRoom`. -/
def removePlayerFromRoom (ok : ConnRef → Bool) (s : Server) (roomID : String) (room : RoomRef)
    (conn : ConnRef) (player : PlayerRef) : Server × List Effect :=
  let s1 := s.setPlayers room (mapDelete (s.roomHeap room).Players conn)
  let remainingPlayers := mapLen (s1.roomHeap room).Players
  let out := broadcastToRoom ok s1 room
    (.playerLeft (s1.playerHeap player).Username (s1.playerHeap player).ID)
  if remainingPlayers = 0 then ({ out.1 with rooms := mapDelete out.1.rooms roomID }, out.2)
  else out

/-- `allPlayersCompleted` on the player map of a room. -/
def allCompleted (heap : PlayerRef → Player) : List (ConnRef × PlayerRef) → Bool
  | [] => true
  | e :: rest => if !(heap e.2).Completed then false else allCompleted heap rest

/-- `allPlayersCompleted`. -/
def allPlayersCompleted (s : Server) (room : RoomRef) : Bool :=
  allCompleted s.playerHeap (s.roomHeap room).Players

/-- One pass of `cleanupEmptyRooms` over the entry `e` of `rooms`. -/
def cleanupStep (s : Server) (acc : List (String × RoomRef)) (e : String × RoomRef) :
    List (String × RoomRef) :=
  if mapLen (s.roomHeap e.2).Players = 0 then mapDelete acc e.1 else acc

/-- `cleanupEmptyRooms`. -/
def cleanupEmptyRooms (s : Server) : Server :=
  { s with rooms := s.rooms.foldl (cleanupStep s) s.rooms }

/-- `getQuestion`; `room = none` is the nil pointer.  The returned list is the
`data` map. -/
def getQuestion (room : Option Room) (questionNumber : Int) :
    Except String (List (String × Value)) :=
  match room with
  | none => .error "room is nil"
  | some room =>
    match room.Questions with
    | none => .error "no questions found in the room"
    | some questions =>
      if questionNumber < 0 then .error "question number must be non-negative"
      else if questionNumber ≥ mapLen questions then
        .error ("question number " ++ toString questionNumber ++
          " is out of range; total questions available: " ++ toString (mapLen questions))
      else
        match mapGet questions (toString questionNumber) with
        | none => .error ("question with number " ++ toString questionNumber ++ " not found")
        | some question =>
          let data : List (String × Value) := [("flag_url", Value.str question.FlagURL)]
          if room.GameMode = "MCQ" then .ok (mapSet data "options" (Value.strs question.Options))
          else .ok data

/-! ## Connection sessions (`HandleWebSocket`) -/

/-- The first message of a connection. -/
structure InitialMessage where
  Username : String
  RoomID : String
  deriving DecidableEq, Repr

/-- A field of an inbound `data` object, as far as the type assertions of the
handlers tell values apart: a JSON number (a `float64`, here the rational it
denotes), a JSON string, or any other JSON value. -/
inductive Field where
  | number (q : ℚ)
  | string (s : String)
  | other
  deriving DecidableEq, Repr

/-- The `data` of an inbound message: a JSON object or any other JSON value. -/
inductive Data where
  | object (fields : List (String × Field))
  | other
  deriving DecidableEq, Repr

/-- An inbound message of the communication loop. -/
structure Message where
  Event : String
  Data : Data
  deriving DecidableEq, Repr

/-- Go `int(f)` for a `float64`: truncation toward zero (for values within the
range of `int`). -/
def goInt (q : ℚ) : Int := Int.tdiv q.num q.den

/-- The local variables a session keeps after its handshake:
`initialMessage.RoomID`, `room`, `conn` and `player`. -/
structure Session where
  roomID : String
  room : RoomRef
  conn : ConnRef
  player : PlayerRef
  deriving DecidableEq, Repr

/-- How one turn of the communication loop ends: the loop goes on, the function
returns, or the goroutine panics on a nil pointer. -/
inductive Flow where
  | next
  | done
  | crash
  deriving DecidableEq, Repr

/-- `HandleWebSocket` from the first `ReadJSON` to the `playerJoined` broadcast.
`first` is the decoded first message (`none` when reading it fails), `draw` the
number drawn by `generatePlayerID`.  On every early return the deferred
`conn.Close()` runs.  The result holds the session that enters the loop, if any. -/
def handshake (ok : ConnRef → Bool) (draw : Nat) (s : Server) (conn : ConnRef)
    (first : Option InitialMessage) : Server × List Effect × Option Session :=
  match first with
  | none =>
    (s, [Effect.write conn (.error "Invalid initial message") (ok conn), Effect.close conn], none)
  | some initialMessage =>
    match mapGet s.rooms initialMessage.RoomID with
    | none => (s, [Effect.write conn (.error "Room not found") (ok conn), Effect.close conn], none)
    | some room =>
      if mapLen (s.roomHeap room).Players ≥ 9 then
        (s, [Effect.write conn (.error "Room is full, only 9 members can join in one room")
              (ok conn), Effect.close conn], none)
      else
        let player : Player :=
          { ID := generatePlayerID draw, Username := initialMessage.Username, Score := 0,
            Completed := false, Conn := conn }
        let ref := s.nextPlayer
        let s1 : Server :=
          { s with playerHeap := Function.update s.playerHeap ref player, nextPlayer := ref + 1 }
        let s2 := s1.setPlayers room (mapSet (s1.roomHeap room).Players conn ref)
        let out := broadcastToRoom ok s2 room (.playerJoined player.Username player.Score player.ID)
        (out.1, out.2,
          some { roomID := initialMessage.RoomID, room := room, conn := conn, player := ref })

/-- The assignment `room.Start = true` on the room at address `room`. -/
def Server.setStart (s : Server) (room : RoomRef) : Server :=
  { s with roomHeap := Function.update s.roomHeap room { s.roomHeap room with Start := true } }

/-- The `loadgame` case without its pauses: four countdown broadcasts, the start
flag, the `gameStarted` broadcast.  `ok i` is the delivery table of the `i`-th
broadcast.  The timer goroutine it starts is `gameTimer`. -/
def loadgame (ok : Nat → ConnRef → Bool) (s : Server) (ss : Session) : Server × List Effect :=
  let b3 := broadcastToRoom (ok 0) s ss.room (.countdown 3)
  let b2 := broadcastToRoom (ok 1) b3.1 ss.room (.countdown 2)
  let b1 := broadcastToRoom (ok 2) b2.1 ss.room (.countdown 1)
  let b0 := broadcastToRoom (ok 3) b1.1 ss.room (.countdown 0)
  let g := broadcastToRoom (ok 4) (b0.1.setStart ss.room) ss.room .gameStarted
  (g.1, b3.2 ++ b2.2 ++ b1.2 ++ b0.2 ++ g.2)

/-- The goroutine started by `loadgame`, once its sleep of `TimeLimit` minutes is
over: `time_over` broadcast, every connection of the room closed, and
`delete(rooms, room.Code)`. -/
def gameTimer (ok : ConnRef → Bool) (s : Server) (room : RoomRef) : Server × List Effect :=
  let b := broadcastToRoom ok s room .time_over
  let closes := (b.1.roomHeap room).Players.map (fun e => Effect.close e.1)
  ({ b.1 with rooms := mapDelete b.1.rooms (b.1.roomHeap room).Code }, b.2 ++ closes)

/-- The `get_new_question` case. -/
def getNewQuestion (ok : ConnRef → Bool) (s : Server) (ss : Session) (data : Data) :
    List Effect :=
  match data with
  | .other => [Effect.write ss.conn (.error "Invalid data format") (ok ss.conn)]
  | .object dataMap =>
    match mapGet dataMap "question_number" with
    | some (.number questionNumberFloat) =>
      match getQuestion (some (s.roomHeap ss.room)) (goInt questionNumberFloat) with
      | .error _ => [Effect.write ss.conn (.error "Failed to get question") (ok ss.conn)]
      | .ok question => [Effect.write ss.conn (.new_question question) (ok ss.conn)]
    | _ => [Effect.write ss.conn (.error "Invalid question number") (ok ss.conn)]

/-- The `clean_room` case. -/
def cleanRoom (s : Server) (ss : Session) : Server × List Effect :=
  if allPlayersCompleted s ss.room then
    ({ s with rooms := mapDelete s.rooms ss.roomID },
      (s.roomHeap ss.room).Players.map (fun e => Effect.close e.1))
  else (s, [])

/-- Writes the player object at address `player`. -/
def Server.setPlayer (s : Server) (player : PlayerRef) (v : Player) : Server :=
  { s with playerHeap := Function.update s.playerHeap player v }

/-- The `if isCorrect` block of the `validate_answer` case: the score of the
sender goes up by one and is broadcast. -/
def awardScore (ok : ConnRef → Bool) (s : Server) (ss : Session) (isCorrect : Bool) :
    Server × List Effect :=
  if isCorrect then
    let s1 := s.setPlayer ss.player
      { s.playerHeap ss.player with Score := (s.playerHeap ss.player).Score + 1 }
    broadcastToRoom ok s1 ss.room
      (.score (s1.playerHeap ss.player).Username (s1.playerHeap ss.player).Score)
  else (s, [])

/-- The last block of the `validate_answer` case, run when
`data.QuestionIndex+1 == len(room.Questions)`: the sender is marked completed,
`finished_game` is broadcast with table `okFinished`, and
`all_players_finished` with table `okAll` when `allPlayersCompleted(room)`. -/
def finishGame (okFinished okAll : ConnRef → Bool) (s : Server) (ss : Session) :
    Server × List Effect :=
  let s2 := s.setPlayer ss.player { s.playerHeap ss.player with Completed := true }
  let f := broadcastToRoom okFinished s2 ss.room
    (.finished_game (s2.playerHeap ss.player).Username)
  if allPlayersCompleted f.1 ss.room then
    let a := broadcastToRoom okAll f.1 ss.room .all_players_finished
    (a.1, f.2 ++ a.2)
  else f

/-- The `validate_answer` case.  `ok 0` is the outcome table of the unicast of
`answer_result`, `ok 1`, `ok 2` and `ok 3` those of the `score`, `finished_game`
and `all_players_finished` broadcasts.  When the map has no question under the
index, `question` is nil and reading `question.Answer` panics: nothing but the
deferred `conn.Close()` runs. -/
def validateAnswer (ok : Nat → ConnRef → Bool) (s : Server) (ss : Session) (data : Data) :
    Server × List Effect × Flow :=
  match data with
  | .other => (s, [Effect.write ss.conn (.error "Invalid data format") (ok 0 ss.conn)], .next)
  | .object rawData =>
    match mapGet rawData "question_index" with
    | some (.number questionIndex) =>
      match mapGet rawData "answer" with
      | some (.string answer) =>
        let index := goInt questionIndex
        if index < 0 ∨ index ≥ (s.roomHeap ss.room).numQuestions then
          (s, [Effect.write ss.conn (.error "Invalid question index") (ok 0 ss.conn)], .next)
        else
          match (s.roomHeap ss.room).question (toString index) with
          | none => (s, [Effect.close ss.conn], .crash)
          | some question =>
            let e0 := [Effect.write ss.conn (.answer_result question.Answer answer) (ok 0 ss.conn)]
            let r1 := awardScore (ok 1) s ss (decide (question.Answer = answer))
            let r2 : Server × List Effect :=
              if index + 1 = (r1.1.roomHeap ss.room).numQuestions then
                finishGame (ok 2) (ok 3) r1.1 ss
              else (r1.1, [])
            (r2.1, e0 ++ r1.2 ++ r2.2, .next)
      | _ => (s, [Effect.write ss.conn (.error "Invalid answer") (ok 0 ss.conn)], .next)
    | _ => (s, [Effect.write ss.conn (.error "Invalid question index") (ok 0 ss.conn)], .next)

/-- One turn of the communication loop of `HandleWebSocket`: `message` is the
result of `conn.ReadJSON` (`none` when it fails).  A failed read and `leave` run
`removePlayerFromRoom` and return, which runs the deferred `conn.Close()`. -/
def handleMessage (ok : Nat → ConnRef → Bool) (s : Server) (ss : Session)
    (message : Option Message) : Server × List Effect × Flow :=
  match message with
  | none =>
    let r := removePlayerFromRoom (ok 0) s ss.roomID ss.room ss.conn ss.player
    (r.1, r.2 ++ [Effect.close ss.conn], .done)
  | some m =>
    if m.Event = "leave" then
      let r := removePlayerFromRoom (ok 0) s ss.roomID ss.room ss.conn ss.player
      (r.1, r.2 ++ [Effect.close ss.conn], .done)
    else if m.Event = "loadgame" then
      let r := loadgame ok s ss
      (r.1, r.2, .next)
    else if m.Event = "get_new_question" then
      (s, getNewQuestion (ok 0) s ss m.Data, .next)
    else if m.Event = "clean_room" then
      let r := cleanRoom s ss
      (r.1, r.2, .next)
    else if m.Event = "validate_answer" then validateAnswer ok s ss m.Data
    else (s, [], .next)

/-! ## Question generation (`internals/utils.go`) -/

/-- The callback `rows[i], rows[j] = rows[j], rows[i]` of the shuffles. -/
def swapAt {α : Type} (l : List α) (i j : Nat) : List α :=
  match l[i]?, l[j]? with
  | some a, some b => (l.set i b).set j a
  | _, _ => l

/-- The loop `for i := n - 1; i > 0; i-- { j := rng.Intn(i + 1); swap(i, j) }` of
`rng.Shuffle`, entered at step `i`; `draw i` is the number the generator gives
at step `i`. -/
def shuffleFrom {α : Type} (draw : Nat → Nat) : Nat → List α → List α
  | 0, l => l
  | i + 1, l => shuffleFrom draw i (swapAt l (i + 1) (draw (i + 1) % (i + 2)))

/-- The call `rng.Shuffle(len(l), swap)`. -/
def shuffle {α : Type} (draw : Nat → Nat) (l : List α) : List α :=
  shuffleFrom draw (l.length - 1) l

/-- `shuffleOptions`. -/
def shuffleOptions (draw : Nat → Nat) (options : List String) : List String :=
  shuffle draw options

/-- `selectRandomCountries`; `none` is the panic of `rows[:count]` on a negative
count. -/
def selectRandomCountries (draw : Nat → Nat) (rows : List (List String)) (count : Int) :
    Option (List (List String)) :=
  let shuffled := shuffle draw rows
  if (shuffled.length : Int) < count then some shuffled
  else if count < 0 then none
  else some (shuffled.take count.toNat)

/-- The numbers the generator of `generateQuestions` gives: `rows i` at step `i`
of the shuffle of the rows, `options k i` at step `i` of the shuffle of the
options of question `k`. -/
structure QuestionDraws where
  rows : Nat → Nat
  options : Nat → Nat → Nat

/-- The body of the loop of `generateQuestions` for the row `row` at index `i`;
`none` is the panic of an index out of range (`row[0]`, `row[1]`).
`filepathJoin` is the library function `filepath.Join`. -/
def buildQuestion (filepathJoin : String → String → String) (draws : QuestionDraws)
    (selectedCountries : List (List String)) (gameType : String) (i : Nat)
    (row : List String) : Option Question := do
  let countryName ← row[0]?
  let countryCode ← row[1]?
  let flagURL := filepathJoin "/static/svg" (countryCode ++ ".svg")
  if gameType ≠ "MAP" then
    let r0 ← selectedCountries[(i + 0 + 1) % selectedCountries.length]?
    let o0 ← r0[0]?
    let r1 ← selectedCountries[(i + 1 + 1) % selectedCountries.length]?
    let o1 ← r1[0]?
    let r2 ← selectedCountries[(i + 2 + 1) % selectedCountries.length]?
    let o2 ← r2[0]?
    some { FlagURL := flagURL, Answer := countryName,
           Options := shuffleOptions (draws.options i) [countryName, o0, o1, o2] }
  else
    some { FlagURL := flagURL, Answer := countryName, Options := [] }

/-- The loop `for i, row := range selectedCountries` of `generateQuestions`,
entered at index `i` with the rows `rest` still to visit. -/
def buildQuestions (filepathJoin : String → String → String) (draws : QuestionDraws)
    (selectedCountries : List (List String)) (gameType : String) :
    Nat → List (List String) → Option (List Question)
  | _, [] => some []
  | i, row :: rest =>
    match buildQuestion filepathJoin draws selectedCountries gameType i row,
      buildQuestions filepathJoin draws selectedCountries gameType (i + 1) rest with
    | some q, some qs => some (q :: qs)
    | _, _ => none

/-- `generateQuestions`.  `file` is what `os.Open` and `reader.ReadAll` give for
`./data/countries.csv`: the records, or an error.  The result is `none` when the
function panics. -/
def generateQuestions (file : Except String (List (List String))) (draws : QuestionDraws)
    (filepathJoin : String → String → String) (numQuestions : Int) (gameType : String) :
    Option (Except String (List Question)) :=
  match file with
  | .error e => some (.error e)
  | .ok rows =>
    match selectRandomCountries draws.rows rows numQuestions with
    | none => none
    | some selectedCountries =>
      match buildQuestions filepathJoin draws selectedCountries gameType 0 selectedCountries with
      | none => none
      | some questions => some (.ok questions)

/-- The generator the create handler calls, on a given dataset and given draws,
for the runs in which `generateQuestions` returns; a panic, which is outside
`createRoomHandler` as modelled here, is mapped to an error. -/
def questionSource (file : Except String (List (List String))) (draws : QuestionDraws)
    (filepathJoin : String → String → String) : Int → String → Except String (List Question) :=
  fun numQuestions gameType =>
    match generateQuestions file draws filepathJoin numQuestions gameType with
    | some r => r
    | none => .error "panic"

/-! ## Observations and runs -/

/-- The write attempts recorded in a list of effects, in order: the connection
written to and the message. -/
def writesOf : List Effect → List (ConnRef × Msg)
  | [] => []
  | Effect.write c m _ :: rest => (c, m) :: writesOf rest
  | Effect.close _ :: rest => writesOf rest

/-- The connections to which `msg` was written, in order. -/
def sentTo (effects : List Effect) (msg : Msg) : List ConnRef :=
  ((writesOf effects).filter (fun w => decide (w.2 = msg))).map Prod.fst

/-- The operations that act on the process state: the create handler, a
connection handshake, one turn of a session loop (a message or a failed read),
a broadcast, the expiry of a game timer and the periodic cleanup. -/
inductive Op where
  | create (gen : Int → String → Except String (List Question)) (draw : Nat)
      (call : CreateRoomCall)
  | connect (ok : ConnRef → Bool) (draw : Nat) (conn : ConnRef) (first : Option InitialMessage)
  | message (ok : Nat → ConnRef → Bool) (ss : Session) (message : Option Message)
  | broadcast (ok : ConnRef → Bool) (room : RoomRef) (msg : Msg)
  | timer (ok : ConnRef → Bool) (room : RoomRef)
  | cleanup

/-- The state after one operation. -/
def step (s : Server) : Op → Server
  | .create gen draw call => (createRoomHandler gen draw s call).1
  | .connect ok draw conn first => (handshake ok draw s conn first).1
  | .message ok ss message => (handleMessage ok s ss message).1
  | .broadcast ok room msg => (broadcastToRoom ok s room msg).1
  | .timer ok room => (gameTimer ok s room).1
  | .cleanup => cleanupEmptyRooms s

/-- The state after a sequence of operations. -/
def run (s : Server) (ops : List Op) : Server := ops.foldl step s

/-- The questions of the room are stored under the indices `0 .. N-1`, as
`createRoomHandler` stores them. -/
def WellStored (room : Room) : Prop :=
  ∀ i : Int, 0 ≤ i → i < room.numQuestions → (room.question (toString i)).isSome = true

/-- No operation between `s` and `t` added a room or a player, or touched the
questions: the registry of `t` is not longer, every player map of `t` is a
sublist of the one in `s`, and every room has the questions it had. -/
def Shrinks (s t : Server) : Prop :=
  t.rooms.length ≤ s.rooms.length ∧
    ∀ r : RoomRef, List.Sublist (t.roomHeap r).Players (s.roomHeap r).Players ∧
      (t.roomHeap r).Questions = (s.roomHeap r).Questions

/-- Every room of the heap has its questions stored under `0 .. N-1`. -/
def AllWellStored (s : Server) : Prop := ∀ r : RoomRef, WellStored (s.roomHeap r)

/-- The digit a decimal digit character stands for. -/
def digitValue (c : Char) : Nat := c.toNat - 48

/-- The number a list of decimal digit characters stands for, read after the
digits already summed up in `acc`. -/
def digitsValue (acc : Nat) (l : List Char) : Nat :=
  l.foldl (fun a c => a * 10 + digitValue c) acc

/-- The registry holds at most 10 rooms. -/
def RoomsWithin (s : Server) : Prop := s.rooms.length ≤ 10

/-- Every room holds at most 9 players. -/
def PlayersWithin (s : Server) : Prop := ∀ r : RoomRef, (s.roomHeap r).Players.length ≤ 9

/-! ## Example states -/

/-- A registry with ten rooms. -/
def fullServer : Server :=
  { Server.start with
    rooms := [("0", 0), ("1", 1), ("2", 2), ("3", 3), ("4", 4), ("5", 5), ("6", 6), ("7", 7),
      ("8", 8), ("9", 9)],
    nextRoom := 10 }

/-- A room with two questions, registered under the code 42 at address 0. -/
def quizRoom (players : List (ConnRef × PlayerRef)) (start : Bool) : Room :=
  { Code := "42", Hostname := "anna", Players := players,
    Questions := some [("0", ⟨"/static/svg/fr.svg", ["France", "Italy"], "France"⟩),
      ("1", ⟨"/static/svg/it.svg", ["Italy", "Spain"], "Italy"⟩)],
    Start := start, TimeLimit := 5, GameMode := "MCQ" }

/-- One registered room at address 0 with the given players and start flag; the
player objects at addresses 0 and 1 are anna and bert. -/
def quizServer (players : List (ConnRef × PlayerRef)) (start : Bool) : Server :=
  { rooms := [("42", 0)],
    roomHeap := Function.update (fun _ => default) 0 (quizRoom players start),
    playerHeap := Function.update
      (Function.update (fun _ => default) 0 ⟨"11", "anna", 0, false, 1⟩) 1
      ⟨"12", "bert", 0, false, 2⟩,
    nextRoom := 1, nextPlayer := 2 }

/-- Nine connections with their player addresses. -/
def ninePlayers : List (ConnRef × PlayerRef) :=
  [(1, 0), (2, 1), (3, 2), (4, 3), (5, 4), (6, 5), (7, 6), (8, 7), (9, 8)]

/-- A create request that passes validation. -/
def goodCreate : CreateRoomCall := ⟨"POST", some (⟨5, 10, "MCQ"⟩, "host")⟩

/-- A create request whose time limit is out of range. -/
def badCreate : CreateRoomCall := ⟨"POST", some (⟨0, 10, "MCQ"⟩, "host")⟩

/-- A question generator that returns no question. -/
def noQuestions : Int → String → Except String (List Question) := fun _ _ => Except.ok []

/-- The session of anna in the example room: connection 1, player object 0. -/
def annaSession : Session := ⟨"42", 0, 1, 0⟩

/-- A `validate_answer` payload. -/
def answerData (index : ℚ) (answer : String) : List (String × Field) :=
  [("question_index", Field.number index), ("answer", Field.string answer)]

/-- The connections closed in a list of effects, in order. -/
def closesOf : List Effect → List ConnRef
  | [] => []
  | Effect.write _ _ _ :: rest => closesOf rest
  | Effect.close c :: rest => c :: closesOf rest

/-- The outcomes recorded for the write attempts in a list of effects, in order:
the connection and whether the delivery succeeded. -/
def outcomesOf : List Effect → List (ConnRef × Bool)
  | [] => []
  | Effect.write c _ d :: rest => (c, d) :: outcomesOf rest
  | Effect.close _ :: rest => outcomesOf rest

/-- The registry has one entry per code, as every Go map has one entry per key. -/
def RegistryNodup (s : Server) : Prop := (mapKeys s.rooms).Nodup

/-- The registry of `t` is the registry of `s` with some entries taken out. -/
def RegistrySub (s t : Server) : Prop := List.Sublist t.rooms s.rooms

/-- Two registered rooms, under the codes 42 and 77: the first with anna in it,
the second without players. -/
def twoRoomServer : Server :=
  { rooms := [("42", 0), ("77", 1)],
    roomHeap := Function.update (Function.update (fun _ => default) 0 (quizRoom [(1, 0)] false)) 1
      { quizRoom [] false with Code := "77" },
    playerHeap := Function.update (fun _ => default) 0 ⟨"11", "anna", 0, false, 1⟩,
    nextRoom := 2, nextPlayer := 1 }

/-- `joinRoomHandler` as a step on the process state: the handler has no
assignment to `rooms`, to a room or to a player, so the state after it is the
state before it. -/
def joinRoomStep (equalFold : String → String → Bool) (s : Server) (call : JoinRoomCall) :
    Server × Response :=
  (s, joinRoomHandler equalFold s call)

/-- Equality of two strings after lowering their ASCII letters, a stand-in for
`strings.EqualFold` in examples. -/
def asciiFold (a b : String) : Bool :=
  decide (a.data.map Char.toLower = b.data.map Char.toLower)

/-- A dataset with three countries. -/
def threeCountries : List (List String) :=
  [["France", "fr"], ["Italy", "it"], ["Spain", "es"]]

/-- A dataset with ten countries. -/
def tenCountries : List (List String) :=
  [["France", "fr"], ["Italy", "it"], ["Spain", "es"], ["Malta", "mt"], ["Latvia", "lv"],
    ["Norway", "no"], ["Sweden", "se"], ["Poland", "pl"], ["Greece", "gr"], ["Cyprus", "cy"]]

/-- Draws that are all zero. -/
def zeroDraws : QuestionDraws := ⟨fun _ => 0, fun _ _ => 0⟩

/-- Path joining by a slash, a stand-in for `filepath.Join` in examples. -/
def slashJoin (a b : String) : String := a ++ "/" ++ b

/-- The generator on the dataset of ten countries with all draws zero. -/
def tenSource : Int → String → Except String (List Question) :=
  questionSource (.ok tenCountries) zeroDraws slashJoin

/-- A run in which a room is overwritten and then its last player leaves: room
A is created under the code 42 and anna joins it; a second create draws 42
again and stores room B under the same code; bert joins under that code, so
he is in B. -/
def overwriteRun : List Op :=
  [Op.create tenSource 42 goodCreate,
   Op.connect (fun _ => true) 11 1 (some ⟨"anna", "42"⟩),
   Op.create tenSource 42 goodCreate,
   Op.connect (fun _ => true) 12 2 (some ⟨"bert", "42"⟩)]

/-- The message `leave` read by the session of anna, which holds room A. -/
def annaLeaves : Op :=
  Op.message (fun _ _ => true) ⟨"42", 0, 1, 0⟩ (some ⟨"leave", Data.other⟩)

/-- A run in which a code is used again while a timer is pending: room A is
created under the code 42, anna joins and starts the game, which arms the
timer of A, and leaves, which deletes A; then room B is created under the code
42 and bert joins it. -/
def reuseRun : List Op :=
  [Op.create tenSource 42 goodCreate,
   Op.connect (fun _ => true) 11 1 (some ⟨"anna", "42"⟩),
   Op.message (fun _ _ => true) ⟨"42", 0, 1, 0⟩ (some ⟨"loadgame", Data.other⟩),
   annaLeaves,
   Op.create tenSource 42 goodCreate,
   Op.connect (fun _ => true) 12 2 (some ⟨"bert", "42"⟩)]

/-- No entry of the registry is stored under the empty code. -/
def RegistryCodes (s : Server) : Prop := ∀ k ∈ mapKeys s.rooms, k ≠ ""

/-- A username of 20 characters whose UTF-8 encoding has 40 bytes. -/
def accentName : String := "éééééééééééééééééééé"

/-- A run that puts a player with the name `accentName` into a room: the room is
created under the code 42, a first connection joins it under that name, and
bert joins it too. -/
def accentRun : List Op :=
  [Op.create tenSource 42 goodCreate,
   Op.connect (fun _ => true) 11 1 (some ⟨accentName, "42"⟩),
   Op.connect (fun _ => true) 12 2 (some ⟨"bert", "42"⟩)]

/-- The message `leave` read by the session of the first connection of
`accentRun`. -/
def accentLeaves : Op :=
  Op.message (fun _ _ => true) ⟨"42", 0, 1, 0⟩ (some ⟨"leave", Data.other⟩)

/-! ## Lemmas on maps -/

theorem mapGet_mapDelete_self {κ ν : Type} [DecidableEq κ] (m : List (κ × ν)) (k : κ) :
    mapGet (mapDelete m k) k = none := by
  induction m with
  | nil => rfl
  | cons e rest ih =>
    obtain ⟨k0, v⟩ := e
    by_cases h : k0 = k
    · simpa [mapDelete, h] using ih
    · simpa [mapDelete, h, mapGet] using ih

theorem mapDelete_mapDelete_self {κ ν : Type} [DecidableEq κ] (m : List (κ × ν)) (k : κ) :
    mapDelete (mapDelete m k) k = mapDelete m k := by
  simp [mapDelete, List.filter_filter]

theorem mapDelete_length_le {κ ν : Type} [DecidableEq κ] (m : List (κ × ν)) (k : κ) :
    (mapDelete m k).length ≤ m.length := by
  unfold mapDelete
  exact List.length_filter_le _ _

theorem mapSet_length_le {κ ν : Type} [DecidableEq κ] (m : List (κ × ν)) (k : κ) (v : ν) :
    (mapSet m k v).length ≤ m.length + 1 := by
  induction m with
  | nil => simp [mapSet]
  | cons e rest ih =>
    obtain ⟨k0, v0⟩ := e
    by_cases h : k0 = k
    · simp [mapSet, h]
    · simpa [mapSet, h] using ih

theorem mapGet_mapSet_self {κ ν : Type} [DecidableEq κ] (m : List (κ × ν)) (k : κ) (v : ν) :
    mapGet (mapSet m k v) k = some v := by
  induction m with
  | nil => simp [mapSet, mapGet]
  | cons e rest ih =>
    obtain ⟨k0, v0⟩ := e
    by_cases h : k0 = k
    · simp [mapSet, h, mapGet]
    · simpa [mapSet, h, mapGet] using ih

theorem mapSet_length_of_mem {κ ν : Type} [DecidableEq κ] (m : List (κ × ν)) (k : κ) (v : ν)
    (h : (mapGet m k).isSome) : (mapSet m k v).length = m.length := by
  induction m with
  | nil => simp [mapGet] at h
  | cons e rest ih =>
    obtain ⟨k0, v0⟩ := e
    by_cases hk : k0 = k
    · simp [mapSet, hk]
    · simp only [mapGet, hk, if_false] at h
      simpa [mapSet, hk] using ih h

theorem mapSet_length_of_not_mem {κ ν : Type} [DecidableEq κ] (m : List (κ × ν)) (k : κ) (v : ν)
    (h : mapGet m k = none) : (mapSet m k v).length = m.length + 1 := by
  induction m with
  | nil => simp [mapSet]
  | cons e rest ih =>
    obtain ⟨k0, v0⟩ := e
    by_cases hk : k0 = k
    · simp [mapGet, hk] at h
    · simp only [mapGet, hk, if_false] at h
      simpa [mapSet, hk] using ih h

theorem mem_of_mapGet {κ ν : Type} [DecidableEq κ] (m : List (κ × ν)) (k : κ) (v : ν)
    (h : mapGet m k = some v) : (k, v) ∈ m := by
  induction m with
  | nil => simp [mapGet] at h
  | cons e rest ih =>
    obtain ⟨k0, v0⟩ := e
    by_cases hk : k0 = k
    · simp only [mapGet, hk, if_true, Option.some.injEq] at h
      simp [hk, h]
    · simp only [mapGet, hk, if_false] at h
      exact List.mem_cons_of_mem _ (ih h)

/-! ## The create handler -/

theorem validate_none_iff (req : CreateRoomRequest) :
    ValidateCreateRoomRequest req = none ↔
      (3 ≤ req.TimeLimit ∧ req.TimeLimit ≤ 10) ∧
      (10 ≤ req.NumQuestions ∧ req.NumQuestions ≤ 25) ∧ req.GameType ≠ "" := by
  unfold ValidateCreateRoomRequest
  constructor
  · intro h
    split_ifs at h with h1 h2 h3
    refine ⟨⟨?_, ?_⟩, ⟨?_, ?_⟩, h3⟩ <;> omega
  · rintro ⟨⟨a, b⟩, ⟨c, d⟩, e⟩
    rw [if_neg (by omega), if_neg (by omega), if_neg e]

/-- The two ways a create handler call ends: a failure that leaves the state as
it was, or a 200 that stores a fresh room without players below the limit. -/
theorem createRoomHandler_cases
    (gen : Int → String → Except String (List Question)) (draw : Nat) (s : Server)
    (call : CreateRoomCall) :
    ((createRoomHandler gen draw s call).1 = s ∧
      (createRoomHandler gen draw s call).2.status ≠ 200) ∨
    (∃ room : Room, room.Players = [] ∧
      (∃ questions, room.Questions = some (storeQuestions 0 questions [])) ∧
      s.rooms.length < 10 ∧
      (createRoomHandler gen draw s call).2.status = 200 ∧
      (createRoomHandler gen draw s call).1 =
        { s with rooms := mapSet s.rooms (generateRoomID draw) s.nextRoom,
                 roomHeap := Function.update s.roomHeap s.nextRoom room,
                 nextRoom := s.nextRoom + 1 }) := by
  by_cases hm : call.method = "POST"
  · rcases hb : call.body with _ | ⟨req, host⟩
    · left; simp [createRoomHandler, hm, hb, Response.status]
    · rcases hv : ValidateCreateRoomRequest req with _ | err
      · by_cases hc : mapLen s.rooms ≥ 10
        · left; simp [createRoomHandler, hm, hb, hv, hc, Response.status]
        · by_cases hh : host = ""
          · left; simp [createRoomHandler, hm, hb, hv, hc, hh, Response.status]
          · rcases hq : gen req.NumQuestions req.GameType with e | qs
            · left; simp [createRoomHandler, hm, hb, hv, hc, hh, hq, Response.status]
            · right
              refine ⟨{ Code := generateRoomID draw, Hostname := host, Players := [],
                        Questions := some (storeQuestions 0 qs []), Start := false,
                        TimeLimit := req.TimeLimit, GameMode := req.GameType }, rfl, ⟨qs, rfl⟩,
                        ?_, ?_, ?_⟩
              · simp only [mapLen, ge_iff_le, not_le] at hc
                omega
              · simp [createRoomHandler, hm, hb, hv, hc, hh, hq, Response.status]
              · simp only [createRoomHandler, hm, hb, hv, hc, hh, hq, ne_eq, not_true_eq_false,
                  if_false]
      · left; simp [createRoomHandler, hm, hb, hv, Response.status]
  · left; simp [createRoomHandler, hm, Response.status]

/-- The create handler changes the state only when it answers 200. -/
theorem createRoomHandler_failure_unchanged
    (gen : Int → String → Except String (List Question)) (draw : Nat) (s : Server)
    (call : CreateRoomCall) (h : (createRoomHandler gen draw s call).2.status ≠ 200) :
    (createRoomHandler gen draw s call).1 = s := by
  rcases createRoomHandler_cases gen draw s call with ⟨h1, _⟩ | ⟨_, _, _, _, h2, _⟩
  · exact h1
  · exact absurd h2 h

/-- A create handler call never leaves more than 10 rooms when it starts with at
most 10. -/
theorem createRoomHandler_rooms_le
    (gen : Int → String → Except String (List Question)) (draw : Nat) (s : Server)
    (call : CreateRoomCall) (h : RoomsWithin s) :
    RoomsWithin (createRoomHandler gen draw s call).1 := by
  unfold RoomsWithin at h ⊢
  rcases createRoomHandler_cases gen draw s call with ⟨h1, _⟩ | ⟨_, _, _, hlt, _, h2⟩
  · rw [h1]; exact h
  · rw [h2]
    have := mapSet_length_le s.rooms (generateRoomID draw) s.nextRoom
    simp only
    omega

/-! ## Broadcasts -/

theorem writesOf_append (a b : List Effect) : writesOf (a ++ b) = writesOf a ++ writesOf b := by
  induction a with
  | nil => rfl
  | cons e rest ih =>
    cases e with
    | write c m d => simp [writesOf, ih]
    | close c => simp [writesOf, ih]

/-- The player map left by the loop of a broadcast over the entries `l`, started
with the map `cur`: an entry stays unless `l` holds a failing entry with its key. -/
theorem broadcastFold_players (ok : ConnRef → Bool) (msg : Msg) (l : List (ConnRef × PlayerRef)) :
    ∀ (cur : List (ConnRef × PlayerRef)) (eff : List Effect),
      (l.foldl (broadcastStep ok msg) (cur, eff)).1 =
        cur.filter (fun e => !(l.any (fun x => decide (x.1 = e.1) && !ok x.1))) := by
  induction l with
  | nil => intro cur eff; simp
  | cons x rest ih =>
    intro cur eff
    rw [List.foldl_cons]
    by_cases hx : ok x.1 = true
    · simp only [broadcastStep, hx, if_true]
      rw [ih]
      apply List.filter_congr
      intro e _
      simp [List.any_cons, hx]
    · simp only [broadcastStep, hx, Bool.false_eq_true, if_false]
      rw [ih, mapDelete, List.filter_filter]
      apply List.filter_congr
      intro e _
      have hx2 : ok x.1 = false := by simpa using hx
      by_cases hk : x.1 = e.1
      · have hx3 : ok e.1 = false := hk ▸ hx2
        simp [List.any_cons, hx3, hk]
      · have hk2 : ¬ e.1 = x.1 := fun h => hk h.symm
        simp [List.any_cons, hk, hk2]

theorem broadcastFold_self (ok : ConnRef → Bool) (msg : Msg) (l : List (ConnRef × PlayerRef))
    (eff : List Effect) :
    (l.foldl (broadcastStep ok msg) (l, eff)).1 = l.filter (fun e => ok e.1) := by
  rw [broadcastFold_players]
  apply List.filter_congr
  intro e he
  by_cases hx : ok e.1 = true
  · rw [hx]
    simp only [Bool.not_eq_true', List.any_eq_false, Bool.and_eq_true, decide_eq_true_eq,
      Bool.not_eq_true', not_and, Bool.not_eq_false]
    intro x _ hxe
    rw [hxe]; exact hx
  · have hx2 : ok e.1 = false := by simpa using hx
    rw [hx2]
    simp only [Bool.not_eq_false', List.any_eq_true, Bool.and_eq_true, decide_eq_true_eq,
      Bool.not_eq_true']
    exact ⟨e, he, rfl, hx2⟩

theorem broadcastFold_writes (ok : ConnRef → Bool) (msg : Msg) (l : List (ConnRef × PlayerRef)) :
    ∀ (cur : List (ConnRef × PlayerRef)) (eff : List Effect),
      writesOf (l.foldl (broadcastStep ok msg) (cur, eff)).2 =
        writesOf eff ++ l.map (fun e => (e.1, msg)) := by
  induction l with
  | nil => intro cur eff; simp
  | cons x rest ih =>
    intro cur eff
    rw [List.foldl_cons]
    by_cases hx : ok x.1 = true
    · simp only [broadcastStep, hx, if_true]
      rw [ih, writesOf_append]
      simp [writesOf]
    · simp only [broadcastStep, hx, Bool.false_eq_true, if_false]
      rw [ih, writesOf_append]
      simp [writesOf]

/-- A broadcast leaves in the room exactly the entries whose delivery succeeds. -/
theorem broadcastToRoom_fst (ok : ConnRef → Bool) (s : Server) (room : RoomRef) (msg : Msg) :
    (broadcastToRoom ok s room msg).1 =
      s.setPlayers room ((s.roomHeap room).Players.filter (fun e => ok e.1)) := by
  simp only [broadcastToRoom, broadcastFold_self]

/-- A broadcast writes the message once to every connection of the room. -/
theorem broadcastToRoom_writes (ok : ConnRef → Bool) (s : Server) (room : RoomRef) (msg : Msg) :
    writesOf (broadcastToRoom ok s room msg).2 =
      (s.roomHeap room).Players.map (fun e => (e.1, msg)) := by
  simp only [broadcastToRoom, broadcastFold_writes, writesOf, List.nil_append]

@[simp] theorem setPlayers_rooms (s : Server) (room : RoomRef)
    (players : List (ConnRef × PlayerRef)) : (s.setPlayers room players).rooms = s.rooms := rfl

@[simp] theorem setPlayers_playerHeap (s : Server) (room : RoomRef)
    (players : List (ConnRef × PlayerRef)) :
    (s.setPlayers room players).playerHeap = s.playerHeap := rfl

theorem setPlayers_players (s : Server) (room : RoomRef) (players : List (ConnRef × PlayerRef))
    (r : RoomRef) :
    ((s.setPlayers room players).roomHeap r).Players =
      if r = room then players else (s.roomHeap r).Players := by
  by_cases h : r = room
  · subst h; simp [Server.setPlayers]
  · simp [Server.setPlayers, Function.update_noteq h, h]

@[simp] theorem setPlayers_players_self (s : Server) (room : RoomRef)
    (players : List (ConnRef × PlayerRef)) :
    ((s.setPlayers room players).roomHeap room).Players = players := by
  simp [setPlayers_players]

@[simp] theorem setPlayers_questions (s : Server) (room : RoomRef)
    (players : List (ConnRef × PlayerRef)) (r : RoomRef) :
    ((s.setPlayers room players).roomHeap r).Questions = (s.roomHeap r).Questions := by
  by_cases h : r = room
  · subst h; simp [Server.setPlayers]
  · simp [Server.setPlayers, Function.update_noteq h]

@[simp] theorem setPlayers_start (s : Server) (room : RoomRef)
    (players : List (ConnRef × PlayerRef)) (r : RoomRef) :
    ((s.setPlayers room players).roomHeap r).Start = (s.roomHeap r).Start := by
  by_cases h : r = room
  · subst h; simp [Server.setPlayers]
  · simp [Server.setPlayers, Function.update_noteq h]

@[simp] theorem setPlayers_code (s : Server) (room : RoomRef)
    (players : List (ConnRef × PlayerRef)) (r : RoomRef) :
    ((s.setPlayers room players).roomHeap r).Code = (s.roomHeap r).Code := by
  by_cases h : r = room
  · subst h; simp [Server.setPlayers]
  · simp [Server.setPlayers, Function.update_noteq h]

theorem setPlayers_same (s : Server) (room : RoomRef) :
    s.setPlayers room (s.roomHeap room).Players = s := by
  simp [Server.setPlayers]

@[simp] theorem broadcastToRoom_rooms (ok : ConnRef → Bool) (s : Server) (room : RoomRef)
    (msg : Msg) : (broadcastToRoom ok s room msg).1.rooms = s.rooms := by
  rw [broadcastToRoom_fst]; rfl

@[simp] theorem broadcastToRoom_playerHeap (ok : ConnRef → Bool) (s : Server) (room : RoomRef)
    (msg : Msg) : (broadcastToRoom ok s room msg).1.playerHeap = s.playerHeap := by
  rw [broadcastToRoom_fst]; rfl

@[simp] theorem broadcastToRoom_questions (ok : ConnRef → Bool) (s : Server) (room : RoomRef)
    (msg : Msg) (r : RoomRef) :
    ((broadcastToRoom ok s room msg).1.roomHeap r).Questions = (s.roomHeap r).Questions := by
  rw [broadcastToRoom_fst]; simp

@[simp] theorem broadcastToRoom_players_self (ok : ConnRef → Bool) (s : Server) (room : RoomRef)
    (msg : Msg) :
    ((broadcastToRoom ok s room msg).1.roomHeap room).Players =
      (s.roomHeap room).Players.filter (fun e => ok e.1) := by
  rw [broadcastToRoom_fst]; simp

/-! ## Operations that add neither rooms nor players -/

theorem Shrinks.refl (s : Server) : Shrinks s s :=
  ⟨le_refl _, fun _ => ⟨List.Sublist.refl _, rfl⟩⟩

theorem Shrinks.trans {s t u : Server} (h1 : Shrinks s t) (h2 : Shrinks t u) : Shrinks s u :=
  ⟨le_trans h2.1 h1.1,
    fun r => ⟨(h2.2 r).1.trans (h1.2 r).1, (h2.2 r).2.trans (h1.2 r).2⟩⟩

theorem Shrinks.roomsWithin {s t : Server} (h : Shrinks s t) (hs : RoomsWithin s) :
    RoomsWithin t :=
  le_trans h.1 hs

theorem Shrinks.playersWithin {s t : Server} (h : Shrinks s t) (hs : PlayersWithin s) :
    PlayersWithin t :=
  fun r => le_trans (h.2 r).1.length_le (hs r)

theorem setPlayers_shrinks (s : Server) (room : RoomRef) (players : List (ConnRef × PlayerRef))
    (h : List.Sublist players (s.roomHeap room).Players) : Shrinks s (s.setPlayers room players) := by
  refine ⟨le_refl _, fun r => ⟨?_, setPlayers_questions _ _ _ _⟩⟩
  rw [setPlayers_players]
  split_ifs with hr
  · subst hr; exact h
  · exact List.Sublist.refl _

theorem mapDelete_sublist {κ ν : Type} [DecidableEq κ] (m : List (κ × ν)) (k : κ) :
    List.Sublist (mapDelete m k) m := by
  unfold mapDelete
  exact List.filter_sublist _

theorem deleteRoom_shrinks (s : Server) (roomID : String) :
    Shrinks s { s with rooms := mapDelete s.rooms roomID } :=
  ⟨mapDelete_length_le _ _, fun _ => ⟨List.Sublist.refl _, rfl⟩⟩

theorem setPlayer_shrinks (s : Server) (player : PlayerRef) (v : Player) :
    Shrinks s (s.setPlayer player v) :=
  ⟨le_refl _, fun _ => ⟨List.Sublist.refl _, rfl⟩⟩

theorem broadcastToRoom_shrinks (ok : ConnRef → Bool) (s : Server) (room : RoomRef) (msg : Msg) :
    Shrinks s (broadcastToRoom ok s room msg).1 := by
  rw [broadcastToRoom_fst]
  exact setPlayers_shrinks _ _ _ (List.filter_sublist _)

theorem removePlayerFromRoom_shrinks (ok : ConnRef → Bool) (s : Server) (roomID : String)
    (room : RoomRef) (conn : ConnRef) (player : PlayerRef) :
    Shrinks s (removePlayerFromRoom ok s roomID room conn player).1 := by
  have h1 := setPlayers_shrinks s room (mapDelete (s.roomHeap room).Players conn)
    (mapDelete_sublist _ _)
  unfold removePlayerFromRoom
  simp only
  split_ifs
  · exact (h1.trans (broadcastToRoom_shrinks _ _ _ _)).trans (deleteRoom_shrinks _ _)
  · exact h1.trans (broadcastToRoom_shrinks _ _ _ _)

theorem setStart_shrinks (s : Server) (room : RoomRef) : Shrinks s (s.setStart room) := by
  refine ⟨le_refl _, fun r => ?_⟩
  by_cases hr : r = room
  · subst hr; simp [Server.setStart]
  · simp [Server.setStart, Function.update_noteq hr]

theorem loadgame_shrinks (ok : Nat → ConnRef → Bool) (s : Server) (ss : Session) :
    Shrinks s (loadgame ok s ss).1 := by
  unfold loadgame
  exact (((((broadcastToRoom_shrinks _ _ _ _).trans (broadcastToRoom_shrinks _ _ _ _)).trans
    (broadcastToRoom_shrinks _ _ _ _)).trans (broadcastToRoom_shrinks _ _ _ _)).trans
    (setStart_shrinks _ _)).trans (broadcastToRoom_shrinks _ _ _ _)

theorem gameTimer_shrinks (ok : ConnRef → Bool) (s : Server) (room : RoomRef) :
    Shrinks s (gameTimer ok s room).1 := by
  unfold gameTimer
  exact (broadcastToRoom_shrinks _ _ _ _).trans (deleteRoom_shrinks _ _)

theorem cleanRoom_shrinks (s : Server) (ss : Session) : Shrinks s (cleanRoom s ss).1 := by
  unfold cleanRoom
  split_ifs
  · exact deleteRoom_shrinks _ _
  · exact Shrinks.refl _

theorem awardScore_shrinks (ok : ConnRef → Bool) (s : Server) (ss : Session) (c : Bool) :
    Shrinks s (awardScore ok s ss c).1 := by
  unfold awardScore
  split_ifs
  · exact (setPlayer_shrinks _ _ _).trans (broadcastToRoom_shrinks _ _ _ _)
  · exact Shrinks.refl _

theorem finishGame_shrinks (ok2 ok3 : ConnRef → Bool) (s : Server) (ss : Session) :
    Shrinks s (finishGame ok2 ok3 s ss).1 := by
  unfold finishGame
  simp only
  split_ifs
  · exact ((setPlayer_shrinks _ _ _).trans (broadcastToRoom_shrinks _ _ _ _)).trans
      (broadcastToRoom_shrinks _ _ _ _)
  · exact (setPlayer_shrinks _ _ _).trans (broadcastToRoom_shrinks _ _ _ _)

theorem validateAnswer_shrinks (ok : Nat → ConnRef → Bool) (s : Server) (ss : Session)
    (data : Data) : Shrinks s (validateAnswer ok s ss data).1 := by
  unfold validateAnswer
  split
  · exact Shrinks.refl _
  · split
    · split
      · simp only
        split_ifs
        · exact Shrinks.refl _
        · split
          · exact Shrinks.refl _
          · simp only
            split_ifs
            · exact (awardScore_shrinks _ _ _ _).trans (finishGame_shrinks _ _ _ _)
            · exact awardScore_shrinks _ _ _ _
      · exact Shrinks.refl _
    · exact Shrinks.refl _

theorem handleMessage_shrinks (ok : Nat → ConnRef → Bool) (s : Server) (ss : Session)
    (message : Option Message) : Shrinks s (handleMessage ok s ss message).1 := by
  unfold handleMessage
  split
  · exact removePlayerFromRoom_shrinks _ _ _ _ _ _
  · simp only
    split_ifs
    · exact removePlayerFromRoom_shrinks _ _ _ _ _ _
    · exact loadgame_shrinks _ _ _
    · exact Shrinks.refl _
    · exact cleanRoom_shrinks _ _
    · exact validateAnswer_shrinks _ _ _ _
    · exact Shrinks.refl _

theorem cleanupFold_length_le (s : Server) (l : List (String × RoomRef)) :
    ∀ acc : List (String × RoomRef), (l.foldl (cleanupStep s) acc).length ≤ acc.length := by
  induction l with
  | nil => intro acc; exact le_refl _
  | cons e rest ih =>
    intro acc
    rw [List.foldl_cons]
    refine le_trans (ih _) ?_
    unfold cleanupStep
    split_ifs
    · exact mapDelete_length_le _ _
    · exact le_refl _

theorem cleanupEmptyRooms_shrinks (s : Server) : Shrinks s (cleanupEmptyRooms s) :=
  ⟨cleanupFold_length_le s s.rooms s.rooms, fun _ => ⟨List.Sublist.refl _, rfl⟩⟩

/-! ## The handshake -/

/-- A handshake leaves the registry as it is. -/
theorem handshake_rooms (ok : ConnRef → Bool) (draw : Nat) (s : Server) (conn : ConnRef)
    (first : Option InitialMessage) : (handshake ok draw s conn first).1.rooms = s.rooms := by
  unfold handshake
  split
  · rfl
  · split
    · rfl
    · split_ifs
      · rfl
      · simp

/-- A handshake keeps every room within 9 players. -/
theorem handshake_playersWithin (ok : ConnRef → Bool) (draw : Nat) (s : Server) (conn : ConnRef)
    (first : Option InitialMessage) (hs : PlayersWithin s) :
    PlayersWithin (handshake ok draw s conn first).1 := by
  unfold handshake
  split
  · exact hs
  · split
    · exact hs
    · rename_i initialMessage room hroom
      split_ifs with hfull
      · exact hs
      · simp only
        refine (broadcastToRoom_shrinks _ _ _ _).playersWithin (fun r => ?_)
        rw [setPlayers_players]
        split_ifs with hr
        · have hlt : (s.roomHeap room).Players.length < 9 := by
            simp only [mapLen, ge_iff_le, not_le] at hfull
            omega
          have := mapSet_length_le (s.roomHeap room).Players conn s.nextPlayer
          omega
        · exact hs r

/-- A create handler call keeps every room within 9 players. -/
theorem createRoomHandler_playersWithin
    (gen : Int → String → Except String (List Question)) (draw : Nat) (s : Server)
    (call : CreateRoomCall) (hs : PlayersWithin s) :
    PlayersWithin (createRoomHandler gen draw s call).1 := by
  intro r
  rcases createRoomHandler_cases gen draw s call with ⟨h1, _⟩ | ⟨room, hp, _, _, _, h2⟩
  · rw [h1]; exact hs r
  · rw [h2]
    by_cases hr : r = s.nextRoom
    · subst hr; simp [hp]
    · simpa [Function.update_noteq hr] using hs r

theorem step_playersWithin (s : Server) (op : Op) (hs : PlayersWithin s) :
    PlayersWithin (step s op) := by
  cases op with
  | create gen draw call => exact createRoomHandler_playersWithin gen draw s call hs
  | connect ok draw conn first => exact handshake_playersWithin ok draw s conn first hs
  | message ok ss message => exact (handleMessage_shrinks ok s ss message).playersWithin hs
  | broadcast ok room msg => exact (broadcastToRoom_shrinks ok s room msg).playersWithin hs
  | timer ok room => exact (gameTimer_shrinks ok s room).playersWithin hs
  | cleanup => exact (cleanupEmptyRooms_shrinks s).playersWithin hs

theorem step_roomsWithin (s : Server) (op : Op) (hs : RoomsWithin s) :
    RoomsWithin (step s op) := by
  cases op with
  | create gen draw call => exact createRoomHandler_rooms_le gen draw s call hs
  | connect ok draw conn first =>
    show (handshake ok draw s conn first).1.rooms.length ≤ 10
    rw [handshake_rooms]; exact hs
  | message ok ss message => exact (handleMessage_shrinks ok s ss message).roomsWithin hs
  | broadcast ok room msg => exact (broadcastToRoom_shrinks ok s room msg).roomsWithin hs
  | timer ok room => exact (gameTimer_shrinks ok s room).roomsWithin hs
  | cleanup => exact (cleanupEmptyRooms_shrinks s).roomsWithin hs

theorem run_playersWithin (ops : List Op) :
    ∀ s : Server, PlayersWithin s → PlayersWithin (run s ops) := by
  induction ops with
  | nil => intro s hs; exact hs
  | cons op rest ih =>
    intro s hs
    exact ih _ (step_playersWithin s op hs)

theorem run_roomsWithin (ops : List Op) :
    ∀ s : Server, RoomsWithin s → RoomsWithin (run s ops) := by
  induction ops with
  | nil => intro s hs; exact hs
  | cons op rest ih =>
    intro s hs
    exact ih _ (step_roomsWithin s op hs)

/-! ## Room creation: validation, capacity and room codes -/

/-- C1: `ValidateCreateRoomRequest` returns nil exactly when
`3 <= TimeLimit <= 10`, `10 <= NumQuestions <= 25` and `GameType` is not empty;
for every other request it returns an error, and `createRoomHandler` then
answers 400 with that error and leaves the state, hence the registry, as it was. -/
theorem validateCreateRoomRequest_contract (req : CreateRoomRequest)
    (gen : Int → String → Except String (List Question)) (draw : Nat) (s : Server)
    (hostUsername : String) :
    (ValidateCreateRoomRequest req = none ↔
      (3 ≤ req.TimeLimit ∧ req.TimeLimit ≤ 10) ∧
      (10 ≤ req.NumQuestions ∧ req.NumQuestions ≤ 25) ∧ req.GameType ≠ "") ∧
    (ValidateCreateRoomRequest req ≠ none →
      ∃ err, ValidateCreateRoomRequest req = some err ∧
        createRoomHandler gen draw s ⟨"POST", some (req, hostUsername)⟩ =
          (s, Response.failure 400 err)) := by
  refine ⟨validate_none_iff req, fun h => ?_⟩
  rcases hv : ValidateCreateRoomRequest req with _ | err
  · exact absurd hv h
  · exact ⟨err, rfl, by simp [createRoomHandler, hv]⟩

theorem validateCreateRoomRequest_contract_witness :
    ValidateCreateRoomRequest ⟨0, 10, "MCQ"⟩ ≠ none ∧
    ∃ err, ValidateCreateRoomRequest ⟨0, 10, "MCQ"⟩ = some err ∧
      createRoomHandler noQuestions 0 fullServer ⟨"POST", some (⟨0, 10, "MCQ"⟩, "host")⟩ =
        (fullServer, Response.failure 400 err) :=
  ⟨by decide,
    (validateCreateRoomRequest_contract ⟨0, 10, "MCQ"⟩ noQuestions 0 fullServer "host").2
      (by decide)⟩

/-- C2, as stated, fails: with 10 rooms live, a create attempt whose request
does not pass validation is answered 400, not 403. -/
theorem create_at_capacity_answers_400_for_invalid_request :
    mapLen fullServer.rooms = 10 ∧
    (createRoomHandler noQuestions 0 fullServer badCreate).2.status = 400 ∧
    (createRoomHandler noQuestions 0 fullServer badCreate).2.status ≠ 403 := by
  decide

/-- C2, amended: after any sequence of operations from the start state the
registry holds at most 10 rooms; a create attempt made while 10 rooms are live
fails and leaves the whole state unchanged, and it fails with the capacity
error 403 when it is a POST whose decoded request passes validation. -/
theorem room_count_never_exceeds_ten :
    (∀ ops : List Op, mapLen (run Server.start ops).rooms ≤ 10) ∧
    (∀ (gen : Int → String → Except String (List Question)) (draw : Nat) (s : Server)
        (call : CreateRoomCall), mapLen s.rooms ≥ 10 →
      (createRoomHandler gen draw s call).1 = s ∧
      (createRoomHandler gen draw s call).2.status ≠ 200 ∧
      ∀ req hostUsername, call = ⟨"POST", some (req, hostUsername)⟩ →
        ValidateCreateRoomRequest req = none →
        (createRoomHandler gen draw s call).2 = Response.failure 403
          "Maximum number of rooms (10) reached. Cannot create more rooms.") := by
  refine ⟨fun ops => ?_, fun gen draw s call hfull => ?_⟩
  · have h := run_roomsWithin ops Server.start (by simp [RoomsWithin, Server.start])
    unfold RoomsWithin at h
    unfold mapLen
    exact_mod_cast h
  · have hne : (createRoomHandler gen draw s call).2.status ≠ 200 := by
      rcases createRoomHandler_cases gen draw s call with ⟨_, h1⟩ | ⟨_, _, _, hlt, _, _⟩
      · exact h1
      · simp only [mapLen, ge_iff_le] at hfull
        omega
    refine ⟨createRoomHandler_failure_unchanged gen draw s call hne, hne, ?_⟩
    intro req hostUsername hcall hv
    subst hcall
    simp [createRoomHandler, hv, hfull]

theorem room_count_never_exceeds_ten_witness :
    mapLen fullServer.rooms ≥ 10 ∧
    (createRoomHandler noQuestions 0 fullServer goodCreate).2 = Response.failure 403
      "Maximum number of rooms (10) reached. Cannot create more rooms." :=
  ⟨by decide,
    (room_count_never_exceeds_ten.2 noQuestions 0 fullServer goodCreate (by decide)).2.2
      ⟨5, 10, "MCQ"⟩ "host" rfl (by decide)⟩

/-- C5, the code at a collision: the registry holds a room with one player
under the code 42 at address 0, and `generateRoomID` draws 42 again.  The create
handler answers 200, the registry still has one entry, and that entry now
points to the new, empty room at address 1: the old room was overwritten, no
other code was tried. -/
theorem create_overwrites_room_on_code_collision :
    mapGet (quizServer [(1, 0)] false).rooms "42" = some 0 ∧
    (createRoomHandler noQuestions 42 (quizServer [(1, 0)] false) goodCreate).2.status = 200 ∧
    (createRoomHandler noQuestions 42 (quizServer [(1, 0)] false) goodCreate).1.rooms =
      [("42", 1)] ∧
    (((createRoomHandler noQuestions 42 (quizServer [(1, 0)] false) goodCreate).1.roomHeap
      1).Players = []) ∧
    (((createRoomHandler noQuestions 42 (quizServer [(1, 0)] false) goodCreate).1.roomHeap
      0).Players = [(1, 0)]) := by
  decide

/-! ## Joining a room -/

/-- C3: a handshake against a room that already has 9 players is answered with
the error event, closes the connection and leaves the state unchanged, and no
sequence of operations from the start state (creates, handshakes, messages,
leaves, failed reads, broadcasts, timers, cleanups) reaches a state in which
some room has more than 9 players. -/
theorem player_count_never_exceeds_nine :
    (∀ (ok : ConnRef → Bool) (draw : Nat) (s : Server) (conn : ConnRef)
        (first : InitialMessage) (room : RoomRef),
      mapGet s.rooms first.RoomID = some room → mapLen (s.roomHeap room).Players ≥ 9 →
      handshake ok draw s conn (some first) =
        (s, [Effect.write conn (.error "Room is full, only 9 members can join in one room")
          (ok conn), Effect.close conn], none)) ∧
    (∀ (ops : List Op) (r : RoomRef), mapLen ((run Server.start ops).roomHeap r).Players ≤ 9) := by
  refine ⟨fun ok draw s conn first room hroom hfull => ?_, fun ops r => ?_⟩
  · simp [handshake, hroom, hfull]
  · have h := run_playersWithin ops Server.start (fun _ => by
      show (default : Room).Players.length ≤ 9
      decide) r
    unfold mapLen
    exact_mod_cast h

theorem player_count_never_exceeds_nine_witness :
    handshake (fun _ => true) 7 (quizServer ninePlayers false) 10 (some ⟨"zoe12", "42"⟩) =
      (quizServer ninePlayers false,
        [Effect.write 10 (.error "Room is full, only 9 members can join in one room") true,
          Effect.close 10], none) :=
  player_count_never_exceeds_nine.1 (fun _ => true) 7 (quizServer ninePlayers false) 10
    ⟨"zoe12", "42"⟩ 0 (by decide) (by decide)

/-- C4, the code on a started room: the room at address 0 has `Start = true`
and one player, anna.  The pre-check `joinRoomHandler` refuses carl with 401,
but the handshake of `HandleWebSocket` does not read the flag: it adds the
connection of carl to the player set and opens a session. -/
theorem handshake_admits_player_into_started_room :
    ((quizServer [(1, 0)] true).roomHeap 0).Start = true ∧
    joinRoomHandler (fun a b => decide (a = b)) (quizServer [(1, 0)] true)
      ⟨"POST", some ("carl", "42")⟩ =
      Response.failure 401 "Game has already started. You cannot join now." ∧
    (((handshake (fun _ => true) 7 (quizServer [(1, 0)] true) 5
      (some ⟨"carl", "42"⟩)).1.roomHeap 0).Players = [(1, 0), (5, 2)]) ∧
    (((handshake (fun _ => true) 7 (quizServer [(1, 0)] true) 5
      (some ⟨"carl", "42"⟩)).1.roomHeap 0).Start = true) ∧
    (handshake (fun _ => true) 7 (quizServer [(1, 0)] true) 5 (some ⟨"carl", "42"⟩)).2.2 =
      some ⟨"42", 0, 5, 2⟩ ∧
    (handshake (fun _ => true) 7 (quizServer [(1, 0)] true) 5 (some ⟨"carl", "42"⟩)).2.1 =
      [Effect.write 1 (.playerJoined "carl" 0 "7") true,
        Effect.write 5 (.playerJoined "carl" 0 "7") true] := by
  decide

/-! ## Deregistration -/

theorem setPlayers_setPlayers (s : Server) (room : RoomRef)
    (p q : List (ConnRef × PlayerRef)) :
    (s.setPlayers room p).setPlayers room q = s.setPlayers room q := by
  simp [Server.setPlayers]

theorem mem_mapDelete {κ ν : Type} [DecidableEq κ] (m : List (κ × ν)) (k : κ) (e : κ × ν) :
    e ∈ mapDelete m k ↔ e ∈ m ∧ e.1 ≠ k := by
  simp [mapDelete, List.mem_filter]

theorem mapLen_eq_zero {κ ν : Type} (m : List (κ × ν)) : mapLen m = 0 ↔ m = [] := by
  simp [mapLen]

/-- The state after `removePlayerFromRoom`: the room keeps the entries other
than `conn` whose delivery succeeds, and the code is deleted from the registry
when no entry other than `conn` was in the room. -/
theorem removePlayerFromRoom_fst (ok : ConnRef → Bool) (s : Server) (roomID : String)
    (room : RoomRef) (conn : ConnRef) (player : PlayerRef) :
    (removePlayerFromRoom ok s roomID room conn player).1 =
      { s.setPlayers room ((mapDelete (s.roomHeap room).Players conn).filter (fun e => ok e.1))
        with rooms :=
          if mapDelete (s.roomHeap room).Players conn = [] then mapDelete s.rooms roomID
          else s.rooms } := by
  unfold removePlayerFromRoom
  simp only [setPlayers_players_self, mapLen_eq_zero]
  split_ifs <;>
    simp only [broadcastToRoom_fst, setPlayers_players_self, setPlayers_setPlayers] <;> rfl

theorem removePlayerFromRoom_writes (ok : ConnRef → Bool) (s : Server) (roomID : String)
    (room : RoomRef) (conn : ConnRef) (player : PlayerRef) :
    writesOf (removePlayerFromRoom ok s roomID room conn player).2 =
      (mapDelete (s.roomHeap room).Players conn).map
        (fun e => (e.1, Msg.playerLeft (s.playerHeap player).Username (s.playerHeap player).ID)) := by
  unfold removePlayerFromRoom
  simp only
  split_ifs <;> simp [broadcastToRoom_writes]

theorem filter_eq_self_of_all {α : Type} (p : α → Bool) (l : List α)
    (h : ∀ e ∈ l, p e = true) : l.filter p = l :=
  List.filter_eq_self.mpr h

/-- C6: `removePlayerFromRoom` takes `conn` out of the player set of the room
(what stays are the other entries, less those evicted by a failed delivery of
the notice), writes `playerLeft {username, id}` once to every entry other than
`conn` and never to `conn`, and deletes the code from the registry exactly when
no player is left after the removal; when the sole player of a registered room
is removed, a lookup of the code finds nothing. -/
theorem removePlayerFromRoom_contract (ok : ConnRef → Bool) (s : Server) (roomID : String)
    (room : RoomRef) (conn : ConnRef) (player : PlayerRef) :
    conn ∉ mapKeys ((removePlayerFromRoom ok s roomID room conn player).1.roomHeap room).Players ∧
    (∀ e, e ∈ ((removePlayerFromRoom ok s roomID room conn player).1.roomHeap room).Players ↔
      e ∈ (s.roomHeap room).Players ∧ e.1 ≠ conn ∧ ok e.1 = true) ∧
    writesOf (removePlayerFromRoom ok s roomID room conn player).2 =
      ((s.roomHeap room).Players.filter (fun e => decide (e.1 ≠ conn))).map
        (fun e => (e.1, Msg.playerLeft (s.playerHeap player).Username (s.playerHeap player).ID)) ∧
    (∀ m, (conn, m) ∉ writesOf (removePlayerFromRoom ok s roomID room conn player).2) ∧
    (mapLen (mapDelete (s.roomHeap room).Players conn) = 0 →
      (removePlayerFromRoom ok s roomID room conn player).1.rooms = mapDelete s.rooms roomID ∧
      mapGet (removePlayerFromRoom ok s roomID room conn player).1.rooms roomID = none) ∧
    (mapLen (mapDelete (s.roomHeap room).Players conn) ≠ 0 →
      (removePlayerFromRoom ok s roomID room conn player).1.rooms = s.rooms) ∧
    ((s.roomHeap room).Players = [(conn, player)] →
      mapGet (removePlayerFromRoom ok s roomID room conn player).1.rooms roomID = none) := by
  have hp : ((removePlayerFromRoom ok s roomID room conn player).1.roomHeap room).Players =
      (mapDelete (s.roomHeap room).Players conn).filter (fun e => ok e.1) := by
    rw [removePlayerFromRoom_fst]
    exact setPlayers_players_self _ _ _
  have hr : (removePlayerFromRoom ok s roomID room conn player).1.rooms =
      if mapDelete (s.roomHeap room).Players conn = [] then mapDelete s.rooms roomID
      else s.rooms := by
    rw [removePlayerFromRoom_fst]
  have hmem : ∀ e, e ∈ ((removePlayerFromRoom ok s roomID room conn player).1.roomHeap
      room).Players ↔ e ∈ (s.roomHeap room).Players ∧ e.1 ≠ conn ∧ ok e.1 = true := by
    intro e
    rw [hp, List.mem_filter, mem_mapDelete, and_assoc]
  refine ⟨?_, hmem, removePlayerFromRoom_writes _ _ _ _ _ _, ?_, ?_, ?_, ?_⟩
  · intro hc
    simp only [mapKeys, List.mem_map] at hc
    obtain ⟨e, he, hec⟩ := hc
    exact ((hmem e).mp he).2.1 hec
  · intro m hm
    rw [removePlayerFromRoom_writes, List.mem_map] at hm
    obtain ⟨e, he, heq⟩ := hm
    have h1 := ((mem_mapDelete _ _ _).mp he).2
    exact h1 (congrArg Prod.fst heq)
  · intro h0
    rw [mapLen_eq_zero] at h0
    rw [hr, if_pos h0]
    exact ⟨rfl, mapGet_mapDelete_self _ _⟩
  · intro h0
    rw [Ne, mapLen_eq_zero] at h0
    rw [hr, if_neg h0]
  · intro hsole
    have h0 : mapDelete (s.roomHeap room).Players conn = [] := by
      rw [hsole]; simp [mapDelete]
    rw [hr, if_pos h0]
    exact mapGet_mapDelete_self _ _

theorem removePlayerFromRoom_contract_witness :
    ((quizServer [(1, 0)] false).roomHeap 0).Players = [(1, 0)] ∧
    mapGet (quizServer [(1, 0)] false).rooms "42" = some 0 ∧
    mapGet (removePlayerFromRoom (fun _ => true) (quizServer [(1, 0)] false) "42" 0 1 0).1.rooms
      "42" = none :=
  ⟨by decide, by decide,
    (removePlayerFromRoom_contract (fun _ => true) (quizServer [(1, 0)] false) "42" 0 1
      0).2.2.2.2.2.2 (by decide)⟩

/-- C7, as stated, fails: anna (connection 1) and bert (connection 2) are in the
room; after anna is removed once, a second `removePlayerFromRoom` for anna
writes `playerLeft` to bert again, so it is not a no-op for the events the other
players receive; and when that second write fails, bert is evicted, so the
player set is not the one left by the first call either. -/
theorem second_removal_notifies_again :
    (removePlayerFromRoom (fun _ => true) (quizServer [(1, 0), (2, 1)] false) "42" 0 1 0).2 =
      [Effect.write 2 (.playerLeft "anna" "11") true] ∧
    (removePlayerFromRoom (fun _ => true)
      (removePlayerFromRoom (fun _ => true) (quizServer [(1, 0), (2, 1)] false) "42" 0 1 0).1
      "42" 0 1 0).2 = [Effect.write 2 (.playerLeft "anna" "11") true] ∧
    (removePlayerFromRoom (fun _ => true)
      (removePlayerFromRoom (fun _ => true) (quizServer [(1, 0), (2, 1)] false) "42" 0 1 0).1
      "42" 0 1 0).2 ≠ [] ∧
    ((removePlayerFromRoom (fun _ => true) (quizServer [(1, 0), (2, 1)] false) "42" 0 1
      0).1.roomHeap 0).Players = [(2, 1)] ∧
    ((removePlayerFromRoom (fun _ => false)
      (removePlayerFromRoom (fun _ => true) (quizServer [(1, 0), (2, 1)] false) "42" 0 1 0).1
      "42" 0 1 0).1.roomHeap 0).Players = [] := by
  decide

/-- C7, amended: when every delivery succeeds, a second `removePlayerFromRoom`
for a player that has already been removed leaves the whole state (player sets,
registry, player objects) as it was after the first call, and the function is
total, so it cannot fail; but it writes `playerLeft {username, id}` once more
to every player that is still in the room. -/
theorem second_removal_keeps_state (ok1 ok2 : ConnRef → Bool) (s : Server) (roomID : String)
    (room : RoomRef) (conn : ConnRef) (player : PlayerRef)
    (h1 : ∀ e ∈ (s.roomHeap room).Players, ok1 e.1 = true)
    (h2 : ∀ e ∈ (s.roomHeap room).Players, ok2 e.1 = true) :
    (removePlayerFromRoom ok2 (removePlayerFromRoom ok1 s roomID room conn player).1
      roomID room conn player).1 = (removePlayerFromRoom ok1 s roomID room conn player).1 ∧
    writesOf (removePlayerFromRoom ok2 (removePlayerFromRoom ok1 s roomID room conn player).1
      roomID room conn player).2 =
      ((removePlayerFromRoom ok1 s roomID room conn player).1.roomHeap room).Players.map
        (fun e => (e.1, Msg.playerLeft (s.playerHeap player).Username (s.playerHeap player).ID)) := by
  have hf1 : (mapDelete (s.roomHeap room).Players conn).filter (fun e => ok1 e.1) =
      mapDelete (s.roomHeap room).Players conn :=
    filter_eq_self_of_all _ _ (fun e he => h1 e ((mem_mapDelete _ _ _).mp he).1)
  have hf2 : (mapDelete (s.roomHeap room).Players conn).filter (fun e => ok2 e.1) =
      mapDelete (s.roomHeap room).Players conn :=
    filter_eq_self_of_all _ _ (fun e he => h2 e ((mem_mapDelete _ _ _).mp he).1)
  have hp : ((removePlayerFromRoom ok1 s roomID room conn player).1.roomHeap room).Players =
      mapDelete (s.roomHeap room).Players conn := by
    rw [removePlayerFromRoom_fst, ← hf1]
    simp
  have hh : (removePlayerFromRoom ok1 s roomID room conn player).1.playerHeap = s.playerHeap := by
    rw [removePlayerFromRoom_fst]; rfl
  constructor
  · rw [removePlayerFromRoom_fst ok2, hp, mapDelete_mapDelete_self, hf2]
    rw [removePlayerFromRoom_fst ok1, hf1]
    by_cases h0 : mapDelete (s.roomHeap room).Players conn = []
    · simp [h0, Server.setPlayers, mapDelete_mapDelete_self]
    · simp [h0, Server.setPlayers]
  · rw [removePlayerFromRoom_writes, hh, hp, mapDelete_mapDelete_self]

theorem second_removal_keeps_state_witness :
    writesOf (removePlayerFromRoom (fun _ => true)
      (removePlayerFromRoom (fun _ => true) (quizServer [(1, 0), (2, 1)] false) "42" 0 1 0).1
      "42" 0 1 0).2 =
      ((removePlayerFromRoom (fun _ => true) (quizServer [(1, 0), (2, 1)] false) "42" 0 1
        0).1.roomHeap 0).Players.map (fun e => (e.1, Msg.playerLeft
          ((quizServer [(1, 0), (2, 1)] false).playerHeap 0).Username
          ((quizServer [(1, 0), (2, 1)] false).playerHeap 0).ID)) :=
  (second_removal_keeps_state (fun _ => true) (fun _ => true)
    (quizServer [(1, 0), (2, 1)] false) "42" 0 1 0 (fun _ _ => rfl) (fun _ _ => rfl)).2

/-! ## Stored questions -/

theorem digitValue_digitChar (k : Nat) (h : k < 10) : digitValue (Nat.digitChar k) = k := by
  interval_cases k <;> rfl

theorem digitsValue_toDigitsCore : ∀ (fuel n : Nat) (ds : List Char), n < fuel →
    digitsValue 0 (Nat.toDigitsCore 10 fuel n ds) = digitsValue n ds := by
  intro fuel
  induction fuel with
  | zero => intro n ds h; omega
  | succ fuel ih =>
    intro n ds h
    unfold Nat.toDigitsCore
    simp only
    split_ifs with h0
    · have hn : n < 10 := by omega
      simp only [digitsValue, List.foldl_cons, zero_mul, zero_add]
      rw [digitValue_digitChar _ (Nat.mod_lt _ (by norm_num)), Nat.mod_eq_of_lt hn]
    · have hlt : n / 10 < fuel := by omega
      rw [ih (n / 10) _ hlt]
      simp only [digitsValue, List.foldl_cons]
      rw [digitValue_digitChar _ (Nat.mod_lt _ (by norm_num)), Nat.div_add_mod']

/-- `strconv.Itoa` gives different strings for different indices. -/
theorem toString_nat_injective (m n : Nat) (h : toString m = toString n) : m = n := by
  have h1 : (Nat.toDigits 10 m).asString = (Nat.toDigits 10 n).asString := h
  have h2 : Nat.toDigits 10 m = Nat.toDigits 10 n := congrArg String.data h1
  have hm := digitsValue_toDigitsCore (m + 1) m [] (by omega)
  have hn := digitsValue_toDigitsCore (n + 1) n [] (by omega)
  unfold Nat.toDigits at h2
  rw [h2, hn] at hm
  simpa [digitsValue] using hm.symm

theorem mapGet_mapSet_ne {κ ν : Type} [DecidableEq κ] (m : List (κ × ν)) (k k2 : κ) (v : ν)
    (h : k ≠ k2) : mapGet (mapSet m k v) k2 = mapGet m k2 := by
  induction m with
  | nil => simp [mapSet, mapGet, h]
  | cons e rest ih =>
    obtain ⟨k0, v0⟩ := e
    by_cases hk : k0 = k
    · subst hk
      simp [mapSet, mapGet, h]
    · by_cases hk2 : k0 = k2
      · subst hk2
        simp [mapSet, mapGet, hk]
      · simpa [mapSet, mapGet, hk, hk2] using ih

/-- The map `m` holds exactly the keys of the indices below `i`. -/
theorem storeQuestions_spec : ∀ (questions : List Question) (i : Nat)
    (m : List (String × Question)), m.length = i →
    (∀ k, (mapGet m k).isSome = true ↔ ∃ j, j < i ∧ k = toString j) →
    (storeQuestions i questions m).length = i + questions.length ∧
    (∀ k, (mapGet (storeQuestions i questions m) k).isSome = true ↔
      ∃ j, j < i + questions.length ∧ k = toString j) := by
  intro questions
  induction questions with
  | nil => intro i m hl hk; exact ⟨by simpa [storeQuestions] using hl, by simpa [storeQuestions] using hk⟩
  | cons q rest ih =>
    intro i m hl hk
    have hfresh : mapGet m (toString i) = none := by
      rcases hget : mapGet m (toString i) with _ | v
      · rfl
      · obtain ⟨j, hj, hij⟩ := (hk (toString i)).mp (by simp [hget])
        have := toString_nat_injective i j hij
        omega
    have hl2 : (mapSet m (toString i) q).length = i + 1 := by
      rw [mapSet_length_of_not_mem _ _ _ hfresh, hl]
    have hk2 : ∀ k, (mapGet (mapSet m (toString i) q) k).isSome = true ↔
        ∃ j, j < i + 1 ∧ k = toString j := by
      intro k
      by_cases hki : toString i = k
      · subst hki
        rw [mapGet_mapSet_self]
        exact ⟨fun _ => ⟨i, by omega, rfl⟩, fun _ => rfl⟩
      · rw [mapGet_mapSet_ne _ _ _ _ hki, hk k]
        constructor
        · rintro ⟨j, hj, rfl⟩
          exact ⟨j, by omega, rfl⟩
        · rintro ⟨j, hj, rfl⟩
          have hne : j ≠ i := fun h => hki (by rw [h])
          exact ⟨j, by omega, rfl⟩
    obtain ⟨h1, h2⟩ := ih (i + 1) (mapSet m (toString i) q) hl2 hk2
    refine ⟨?_, fun k => ?_⟩
    · simp only [storeQuestions, List.length_cons]
      omega
    · simp only [storeQuestions, List.length_cons]
      rw [h2 k]
      constructor
      · rintro ⟨j, hj, rfl⟩
        exact ⟨j, by omega, rfl⟩
      · rintro ⟨j, hj, rfl⟩
        exact ⟨j, by omega, rfl⟩

/-- A room whose questions were stored by the loop of `createRoomHandler` has them
under the indices `0 .. N-1`, and as many as the generator returned. -/
theorem wellStored_of_storeQuestions (room : Room) (questions : List Question)
    (h : room.Questions = some (storeQuestions 0 questions [])) :
    WellStored room ∧ room.numQuestions = (questions.length : Int) := by
  obtain ⟨h1, h2⟩ := storeQuestions_spec questions 0 [] rfl (by
    intro k
    simp [mapGet])
  have hn : room.numQuestions = (questions.length : Int) := by
    simp only [Room.numQuestions, h, mapLen, h1, Nat.zero_add]
  refine ⟨fun i h0 hi => ?_, hn⟩
  rw [hn] at hi
  simp only [Room.question, h]
  rw [h2]
  refine ⟨i.toNat, by omega, ?_⟩
  obtain ⟨n, rfl⟩ := Int.eq_ofNat_of_zero_le h0
  rfl

theorem wellStored_of_questions_eq (a b : Room) (h : b.Questions = a.Questions)
    (hw : WellStored a) : WellStored b := by
  intro i h0 hi
  have hn : b.numQuestions = a.numQuestions := by simp [Room.numQuestions, h]
  have hq : b.question (toString i) = a.question (toString i) := by simp [Room.question, h]
  rw [hq]
  exact hw i h0 (hn ▸ hi)

theorem Shrinks.allWellStored {s t : Server} (h : Shrinks s t) (hs : AllWellStored s) :
    AllWellStored t :=
  fun r => wellStored_of_questions_eq _ _ (h.2 r).2 (hs r)

theorem handshake_questions (ok : ConnRef → Bool) (draw : Nat) (s : Server) (conn : ConnRef)
    (first : Option InitialMessage) (r : RoomRef) :
    ((handshake ok draw s conn first).1.roomHeap r).Questions = (s.roomHeap r).Questions := by
  unfold handshake
  split
  · rfl
  · split
    · rfl
    · split_ifs
      · rfl
      · simp

theorem createRoomHandler_allWellStored
    (gen : Int → String → Except String (List Question)) (draw : Nat) (s : Server)
    (call : CreateRoomCall) (hs : AllWellStored s) :
    AllWellStored (createRoomHandler gen draw s call).1 := by
  intro r
  rcases createRoomHandler_cases gen draw s call with ⟨h1, _⟩ | ⟨room, _, hq, _, _, h2⟩
  · rw [h1]; exact hs r
  · rw [h2]
    by_cases hr : r = s.nextRoom
    · subst hr
      obtain ⟨qs, hqs⟩ := hq
      simpa using (wellStored_of_storeQuestions room qs hqs).1
    · simpa [Function.update_noteq hr] using hs r

theorem step_allWellStored (s : Server) (op : Op) (hs : AllWellStored s) :
    AllWellStored (step s op) := by
  cases op with
  | create gen draw call => exact createRoomHandler_allWellStored gen draw s call hs
  | connect ok draw conn first =>
    exact fun r => wellStored_of_questions_eq _ _ (handshake_questions ok draw s conn first r) (hs r)
  | message ok ss message => exact (handleMessage_shrinks ok s ss message).allWellStored hs
  | broadcast ok room msg => exact (broadcastToRoom_shrinks ok s room msg).allWellStored hs
  | timer ok room => exact (gameTimer_shrinks ok s room).allWellStored hs
  | cleanup => exact (cleanupEmptyRooms_shrinks s).allWellStored hs

/-- In every state the process can reach, every room has its questions stored
under the indices `0 .. N-1`. -/
theorem run_allWellStored (ops : List Op) :
    ∀ s : Server, AllWellStored s → AllWellStored (run s ops) := by
  induction ops with
  | nil => intro s hs; exact hs
  | cons op rest ih =>
    intro s hs
    exact ih _ (step_allWellStored s op hs)

theorem start_allWellStored : AllWellStored Server.start := by
  intro r i h0 hi
  have : (Server.start.roomHeap r).numQuestions = 0 := rfl
  omega

/-- In every state reached from the start state, every index in range of every
room has a question stored under it. -/
theorem reachable_question_stored (ops : List Op) (r : RoomRef) (i : Int) (h0 : 0 ≤ i)
    (hi : i < ((run Server.start ops).roomHeap r).numQuestions) :
    ∃ question, ((run Server.start ops).roomHeap r).question (toString i) = some question :=
  Option.isSome_iff_exists.mp (run_allWellStored ops Server.start start_allWellStored r i h0 hi)

/-! ## Answer validation -/

@[simp] theorem setPlayer_roomHeap (s : Server) (player : PlayerRef) (v : Player) :
    (s.setPlayer player v).roomHeap = s.roomHeap := rfl

@[simp] theorem setPlayer_rooms (s : Server) (player : PlayerRef) (v : Player) :
    (s.setPlayer player v).rooms = s.rooms := rfl

@[simp] theorem setPlayer_playerHeap_self (s : Server) (player : PlayerRef) (v : Player) :
    (s.setPlayer player v).playerHeap player = v := by
  simp [Server.setPlayer]

theorem broadcastToRoom_numQuestions (ok : ConnRef → Bool) (s : Server) (room : RoomRef)
    (msg : Msg) (r : RoomRef) :
    ((broadcastToRoom ok s room msg).1.roomHeap r).numQuestions = (s.roomHeap r).numQuestions := by
  simp [Room.numQuestions]

/-- The state after the score block: the score of the sender is one higher when
the answer is correct, and the room keeps the entries the score broadcast
reached. -/
theorem awardScore_fst (ok : ConnRef → Bool) (s : Server) (ss : Session) (c : Bool) :
    (awardScore ok s ss c).1 =
      if c = true then
        (s.setPlayer ss.player
          { s.playerHeap ss.player with Score := (s.playerHeap ss.player).Score + 1 }).setPlayers
          ss.room ((s.roomHeap ss.room).Players.filter (fun e => ok e.1))
      else s := by
  unfold awardScore
  split_ifs
  · rw [broadcastToRoom_fst]; rfl
  · rfl

theorem awardScore_writes (ok : ConnRef → Bool) (s : Server) (ss : Session) (c : Bool) :
    writesOf (awardScore ok s ss c).2 =
      if c = true then
        (s.roomHeap ss.room).Players.map (fun e => (e.1,
          Msg.score (s.playerHeap ss.player).Username ((s.playerHeap ss.player).Score + 1)))
      else [] := by
  unfold awardScore
  split_ifs
  · rw [broadcastToRoom_writes]; simp
  · rfl

theorem awardScore_players (ok : ConnRef → Bool) (s : Server) (ss : Session) (c : Bool) :
    ((awardScore ok s ss c).1.roomHeap ss.room).Players =
      if c = true then (s.roomHeap ss.room).Players.filter (fun e => ok e.1)
      else (s.roomHeap ss.room).Players := by
  rw [awardScore_fst]
  split_ifs
  · simp
  · rfl

theorem awardScore_questions (ok : ConnRef → Bool) (s : Server) (ss : Session) (c : Bool)
    (r : RoomRef) :
    ((awardScore ok s ss c).1.roomHeap r).Questions = (s.roomHeap r).Questions := by
  rw [awardScore_fst]
  split_ifs
  · simp
  · rfl

theorem awardScore_numQuestions (ok : ConnRef → Bool) (s : Server) (ss : Session) (c : Bool)
    (r : RoomRef) :
    ((awardScore ok s ss c).1.roomHeap r).numQuestions = (s.roomHeap r).numQuestions := by
  simp [Room.numQuestions, awardScore_questions]

theorem awardScore_score (ok : ConnRef → Bool) (s : Server) (ss : Session) (c : Bool) :
    ((awardScore ok s ss c).1.playerHeap ss.player).Score =
      (s.playerHeap ss.player).Score + (if c = true then 1 else 0) := by
  rw [awardScore_fst]
  split_ifs
  · simp
  · simp

theorem awardScore_completed (ok : ConnRef → Bool) (s : Server) (ss : Session) (c : Bool)
    (p : PlayerRef) :
    ((awardScore ok s ss c).1.playerHeap p).Completed = (s.playerHeap p).Completed := by
  rw [awardScore_fst]
  split_ifs
  · by_cases hp : p = ss.player
    · subst hp; simp
    · simp [Server.setPlayer, Function.update_noteq hp]
  · rfl

theorem awardScore_username (ok : ConnRef → Bool) (s : Server) (ss : Session) (c : Bool) :
    ((awardScore ok s ss c).1.playerHeap ss.player).Username =
      (s.playerHeap ss.player).Username := by
  rw [awardScore_fst]
  split_ifs
  · simp
  · rfl

theorem awardScore_other_player (ok : ConnRef → Bool) (s : Server) (ss : Session) (c : Bool)
    (p : PlayerRef) (hp : p ≠ ss.player) :
    (awardScore ok s ss c).1.playerHeap p = s.playerHeap p := by
  rw [awardScore_fst]
  split_ifs
  · simp [Server.setPlayer, Function.update_noteq hp]
  · rfl

/-- The player objects after the finishing block: only the flag of the sender
changes. -/
theorem finishGame_playerHeap (ok2 ok3 : ConnRef → Bool) (s : Server) (ss : Session) :
    (finishGame ok2 ok3 s ss).1.playerHeap =
      Function.update s.playerHeap ss.player { s.playerHeap ss.player with Completed := true } := by
  unfold finishGame
  simp only
  split_ifs
  · simp [Server.setPlayer]
  · simp [Server.setPlayer]

theorem handleMessage_validate_answer (ok : Nat → ConnRef → Bool) (s : Server) (ss : Session)
    (data : Data) :
    handleMessage ok s ss (some ⟨"validate_answer", data⟩) = validateAnswer ok s ss data := by
  simp [handleMessage]

/-- The `validate_answer` case on a well-formed payload with an index in range
whose question is stored. -/
theorem validateAnswer_answered (ok : Nat → ConnRef → Bool) (s : Server) (ss : Session)
    (rawData : List (String × Field)) (q : ℚ) (a : String) (question : Question)
    (hq : mapGet rawData "question_index" = some (.number q))
    (ha : mapGet rawData "answer" = some (.string a))
    (hlo : 0 ≤ goInt q) (hhi : goInt q < (s.roomHeap ss.room).numQuestions)
    (hs : (s.roomHeap ss.room).question (toString (goInt q)) = some question) :
    validateAnswer ok s ss (.object rawData) =
      ((if goInt q + 1 = (s.roomHeap ss.room).numQuestions then
          finishGame (ok 2) (ok 3) (awardScore (ok 1) s ss (decide (question.Answer = a))).1 ss
        else ((awardScore (ok 1) s ss (decide (question.Answer = a))).1, [])).1,
       [Effect.write ss.conn (.answer_result question.Answer a) (ok 0 ss.conn)] ++
        (awardScore (ok 1) s ss (decide (question.Answer = a))).2 ++
        (if goInt q + 1 = (s.roomHeap ss.room).numQuestions then
          finishGame (ok 2) (ok 3) (awardScore (ok 1) s ss (decide (question.Answer = a))).1 ss
        else ((awardScore (ok 1) s ss (decide (question.Answer = a))).1, [])).2,
       Flow.next) := by
  have hrange : ¬ (goInt q < 0 ∨ goInt q ≥ (s.roomHeap ss.room).numQuestions) := by
    intro h
    rcases h with h | h <;> omega
  simp only [validateAnswer, hq, ha, hrange, if_false, hs, awardScore_numQuestions]

theorem sentTo_append (a b : List Effect) (msg : Msg) :
    sentTo (a ++ b) msg = sentTo a msg ++ sentTo b msg := by
  simp [sentTo, writesOf_append]

theorem keys_of_const_writes (l : List (ConnRef × PlayerRef)) (m msg : Msg) :
    ((l.map (fun e => (e.1, m))).filter (fun w => decide (w.2 = msg))).map Prod.fst =
      if m = msg then mapKeys l else [] := by
  induction l with
  | nil => simp [mapKeys]
  | cons e rest ih =>
    by_cases hm : m = msg
    · simp only [hm, if_true] at ih ⊢
      simp [mapKeys, List.filter_cons] at ih ⊢
      exact ih
    · simp only [hm, if_false] at ih ⊢
      simp [List.filter_cons, hm] at ih ⊢
      exact ih

theorem sentTo_of_writes (effects : List Effect) (l : List (ConnRef × PlayerRef)) (m msg : Msg)
    (h : writesOf effects = l.map (fun e => (e.1, m))) :
    sentTo effects msg = if m = msg then mapKeys l else [] := by
  unfold sentTo
  rw [h]
  exact keys_of_const_writes l m msg

/-- The effects of the finishing block split in two: first the `finished_game`
writes to every connection of the room, then the `all_players_finished` writes. -/
theorem finishGame_effects (ok2 ok3 : ConnRef → Bool) (s : Server) (ss : Session) :
    ∃ pre post, (finishGame ok2 ok3 s ss).2 = pre ++ post ∧
      writesOf pre = (s.roomHeap ss.room).Players.map
        (fun e => (e.1, Msg.finished_game (s.playerHeap ss.player).Username)) ∧
      writesOf post =
        ((if allCompleted (finishGame ok2 ok3 s ss).1.playerHeap
            ((s.roomHeap ss.room).Players.filter (fun e => ok2 e.1)) = true
          then (s.roomHeap ss.room).Players.filter (fun e => ok2 e.1) else []).map
          (fun e => (e.1, Msg.all_players_finished))) := by
  rw [finishGame_playerHeap]
  unfold finishGame
  simp only [allPlayersCompleted, broadcastToRoom_playerHeap, broadcastToRoom_players_self,
    setPlayer_roomHeap]
  have hh : (s.setPlayer ss.player { s.playerHeap ss.player with Completed := true }).playerHeap =
      Function.update s.playerHeap ss.player { s.playerHeap ss.player with Completed := true } :=
    rfl
  rw [hh]
  split_ifs with hall
  · refine ⟨_, _, rfl, ?_, ?_⟩
    · rw [broadcastToRoom_writes]; simp
    · rw [broadcastToRoom_writes]; simp
  · refine ⟨_, [], (List.append_nil _).symm, ?_, ?_⟩
    · rw [broadcastToRoom_writes]; simp
    · simp [writesOf]

theorem awardScore_no_answer_result (ok : ConnRef → Bool) (s : Server) (ss : Session) (c : Bool)
    (conn : ConnRef) (m : Msg) (h : (conn, m) ∈ writesOf (awardScore ok s ss c).2) :
    ∃ u n, m = Msg.score u n := by
  rw [awardScore_writes] at h
  split_ifs at h
  · rw [List.mem_map] at h
    obtain ⟨e, _, he⟩ := h
    exact ⟨_, _, (congrArg Prod.snd he).symm⟩
  · simp at h

theorem finishGame_messages (ok2 ok3 : ConnRef → Bool) (s : Server) (ss : Session)
    (conn : ConnRef) (m : Msg) (h : (conn, m) ∈ writesOf (finishGame ok2 ok3 s ss).2) :
    (∃ u, m = Msg.finished_game u) ∨ m = Msg.all_players_finished := by
  obtain ⟨pre, post, hsplit, hpre, hpost⟩ := finishGame_effects ok2 ok3 s ss
  rw [hsplit, writesOf_append, List.mem_append] at h
  rcases h with h | h
  · rw [hpre, List.mem_map] at h
    obtain ⟨e, _, he⟩ := h
    exact Or.inl ⟨_, (congrArg Prod.snd he).symm⟩
  · rw [hpost, List.mem_map] at h
    obtain ⟨e, _, he⟩ := h
    exact Or.inr (congrArg Prod.snd he).symm

/-- C8: for an index in range whose question is stored and every submitted
string `a`, the `validate_answer` handler first writes to the requester, and to
nobody else, an `answer_result` whose `correct_answer` is the stored answer and
whose `chosen_answer` is `a`; when `a` is the stored answer the score of the
sender goes up by exactly 1, for any other string it stays, and the scores of
the other players never change. -/
theorem validate_answer_reports_and_scores (ok : Nat → ConnRef → Bool) (s : Server)
    (ss : Session) (rawData : List (String × Field)) (q : ℚ) (a : String) (question : Question)
    (hq : mapGet rawData "question_index" = some (.number q))
    (ha : mapGet rawData "answer" = some (.string a))
    (hlo : 0 ≤ goInt q) (hhi : goInt q < (s.roomHeap ss.room).numQuestions)
    (hs : (s.roomHeap ss.room).question (toString (goInt q)) = some question) :
    (∃ rest, (handleMessage ok s ss (some ⟨"validate_answer", .object rawData⟩)).2.1 =
        Effect.write ss.conn (.answer_result question.Answer a) (ok 0 ss.conn) :: rest ∧
        ∀ c x y, (c, Msg.answer_result x y) ∉ writesOf rest) ∧
    (a = question.Answer →
      ((handleMessage ok s ss (some ⟨"validate_answer", .object rawData⟩)).1.playerHeap
        ss.player).Score = (s.playerHeap ss.player).Score + 1) ∧
    (a ≠ question.Answer →
      ((handleMessage ok s ss (some ⟨"validate_answer", .object rawData⟩)).1.playerHeap
        ss.player).Score = (s.playerHeap ss.player).Score) ∧
    (∀ p, p ≠ ss.player →
      ((handleMessage ok s ss (some ⟨"validate_answer", .object rawData⟩)).1.playerHeap
        p).Score = (s.playerHeap p).Score) := by
  rw [handleMessage_validate_answer, validateAnswer_answered ok s ss rawData q a question hq ha
    hlo hhi hs]
  have hscore : ∀ p, ((if goInt q + 1 = (s.roomHeap ss.room).numQuestions then
        finishGame (ok 2) (ok 3) (awardScore (ok 1) s ss (decide (question.Answer = a))).1 ss
      else ((awardScore (ok 1) s ss (decide (question.Answer = a))).1, [])).1.playerHeap p).Score =
      ((awardScore (ok 1) s ss (decide (question.Answer = a))).1.playerHeap p).Score := by
    intro p
    split_ifs
    · rw [finishGame_playerHeap]
      by_cases hp : p = ss.player
      · subst hp; simp
      · simp [Function.update_noteq hp]
    · rfl
  refine ⟨⟨(awardScore (ok 1) s ss (decide (question.Answer = a))).2 ++
      (if goInt q + 1 = (s.roomHeap ss.room).numQuestions then
        finishGame (ok 2) (ok 3) (awardScore (ok 1) s ss (decide (question.Answer = a))).1 ss
      else ((awardScore (ok 1) s ss (decide (question.Answer = a))).1, [])).2, rfl, ?_⟩, ?_, ?_, ?_⟩
  · intro c x y hmem
    rw [writesOf_append, List.mem_append] at hmem
    rcases hmem with h | h
    · obtain ⟨u, n, hm⟩ := awardScore_no_answer_result _ _ _ _ _ _ h
      cases hm
    · split_ifs at h
      · rcases finishGame_messages _ _ _ _ _ _ h with ⟨u, hm⟩ | hm <;> cases hm
      · simp [writesOf] at h
  · intro heq
    simp only
    rw [hscore, awardScore_score]
    simp [heq]
  · intro hne
    simp only
    rw [hscore, awardScore_score]
    have : ¬ question.Answer = a := fun h => hne h.symm
    simp [this]
  · intro p hp
    simp only
    rw [hscore, awardScore_other_player _ _ _ _ _ hp]

theorem validate_answer_reports_and_scores_witness :
    ((handleMessage (fun _ _ => true) (quizServer [(1, 0)] false) annaSession
        (some ⟨"validate_answer", .object (answerData 0 "France")⟩)).1.playerHeap
      annaSession.player).Score = ((quizServer [(1, 0)] false).playerHeap annaSession.player).Score + 1 :=
  (validate_answer_reports_and_scores (fun _ _ => true) (quizServer [(1, 0)] false) annaSession
    (answerData 0 "France") 0 "France" ⟨"/static/svg/fr.svg", ["France", "Italy"], "France"⟩
    (by decide) (by decide) (by decide) (by decide) (by decide)).2.1 rfl

/-! ## The end of a game -/

theorem sentTo_awardScore (ok : ConnRef → Bool) (s : Server) (ss : Session) (c : Bool)
    (msg : Msg) (h : ∀ u n, msg ≠ Msg.score u n) : sentTo (awardScore ok s ss c).2 msg = [] := by
  by_cases hc : c = true
  · rw [sentTo_of_writes _ (s.roomHeap ss.room).Players
      (Msg.score (s.playerHeap ss.player).Username ((s.playerHeap ss.player).Score + 1)) msg
      (by rw [awardScore_writes, if_pos hc])]
    rw [if_neg (fun hm => h _ _ hm.symm)]
  · rw [sentTo_of_writes _ [] Msg.gameStarted msg (by rw [awardScore_writes, if_neg hc]; rfl)]
    split_ifs <;> rfl

/-- What the `validate_answer` case does for the last index: the flag, the
recipients of both events, and their order. -/
theorem validateAnswer_last (ok : Nat → ConnRef → Bool) (s : Server)
    (ss : Session) (rawData : List (String × Field)) (q : ℚ) (a : String) (question : Question)
    (hq : mapGet rawData "question_index" = some (.number q))
    (ha : mapGet rawData "answer" = some (.string a))
    (hlo : 0 ≤ goInt q) (hlast : goInt q + 1 = (s.roomHeap ss.room).numQuestions)
    (hs : (s.roomHeap ss.room).question (toString (goInt q)) = some question) :
    ((validateAnswer ok s ss (.object rawData)).1.playerHeap ss.player).Completed = true ∧
    sentTo (validateAnswer ok s ss (.object rawData)).2.1
        (.finished_game (s.playerHeap ss.player).Username) =
      mapKeys (if question.Answer = a
        then (s.roomHeap ss.room).Players.filter (fun e => ok 1 e.1)
        else (s.roomHeap ss.room).Players) ∧
    sentTo (validateAnswer ok s ss (.object rawData)).2.1 .all_players_finished =
      (if allCompleted (validateAnswer ok s ss (.object rawData)).1.playerHeap
          ((if question.Answer = a
            then (s.roomHeap ss.room).Players.filter (fun e => ok 1 e.1)
            else (s.roomHeap ss.room).Players).filter (fun e => ok 2 e.1)) = true
        then mapKeys ((if question.Answer = a
            then (s.roomHeap ss.room).Players.filter (fun e => ok 1 e.1)
            else (s.roomHeap ss.room).Players).filter (fun e => ok 2 e.1))
        else []) ∧
    (∃ pre post, (validateAnswer ok s ss (.object rawData)).2.1 = pre ++ post ∧
      sentTo pre .all_players_finished = [] ∧ ∀ u, sentTo post (.finished_game u) = []) := by
  have hhi : goInt q < (s.roomHeap ss.room).numQuestions := by omega
  rw [validateAnswer_answered ok s ss rawData q a question hq ha hlo hhi hs]
  simp only [hlast, if_true]
  obtain ⟨pre, post, hsplit, hpre, hpost⟩ :=
    finishGame_effects (ok 2) (ok 3) (awardScore (ok 1) s ss (decide (question.Answer = a))).1 ss
  have hP : ((awardScore (ok 1) s ss (decide (question.Answer = a))).1.roomHeap ss.room).Players =
      if question.Answer = a then (s.roomHeap ss.room).Players.filter (fun e => ok 1 e.1)
      else (s.roomHeap ss.room).Players := by
    rw [awardScore_players]
    simp
  rw [hP, awardScore_username] at hpre
  rw [hP] at hpost
  have hanswer : ∀ msg : Msg, msg ≠ Msg.answer_result question.Answer a →
      sentTo [Effect.write ss.conn (.answer_result question.Answer a) (ok 0 ss.conn)] msg = [] := by
    intro msg hm
    simp only [sentTo, writesOf, List.filter_cons, List.filter_nil]
    rw [if_neg (by simpa using fun h => hm h.symm)]
    rfl
  have hpreAll : sentTo pre Msg.all_players_finished = [] := by
    rw [sentTo_of_writes _ _ _ _ hpre, if_neg (by simp)]
  have hpostFin : ∀ u, sentTo post (Msg.finished_game u) = [] := by
    intro u
    rw [sentTo_of_writes _ _ _ _ hpost, if_neg (by simp)]
  refine ⟨?_, ?_, ?_, ?_⟩
  · rw [finishGame_playerHeap]; simp
  · rw [hsplit, sentTo_append, sentTo_append, sentTo_append, hanswer _ (by simp),
      sentTo_awardScore _ _ _ _ _ (by simp), hpostFin, sentTo_of_writes _ _ _ _ hpre]
    simp
  · rw [hsplit, sentTo_append, sentTo_append, sentTo_append, hanswer _ (by simp),
      sentTo_awardScore _ _ _ _ _ (by simp), hpreAll, sentTo_of_writes _ _ _ _ hpost, if_pos rfl]
    simp only [List.nil_append]
    split_ifs <;> rfl
  · refine ⟨[Effect.write ss.conn (.answer_result question.Answer a) (ok 0 ss.conn)] ++
      (awardScore (ok 1) s ss (decide (question.Answer = a))).2 ++ pre, post, ?_, ?_, hpostFin⟩
    · rw [hsplit]; simp
    · rw [sentTo_append, sentTo_append, hanswer _ (by simp),
        sentTo_awardScore _ _ _ _ _ (by simp), hpreAll]
      rfl

/-- What the `validate_answer` case does for any payload that does not carry the
last index: neither event is written and no completed flag changes. -/
theorem validateAnswer_not_last (ok : Nat → ConnRef → Bool) (s : Server) (ss : Session)
    (data : Data)
    (hne : ∀ rawData q, data = .object rawData →
      mapGet rawData "question_index" = some (.number q) →
      goInt q + 1 ≠ (s.roomHeap ss.room).numQuestions) :
    (∀ c m, (c, m) ∈ writesOf (validateAnswer ok s ss data).2.1 →
      m ≠ Msg.all_players_finished ∧ ∀ u, m ≠ Msg.finished_game u) ∧
    (∀ p, ((validateAnswer ok s ss data).1.playerHeap p).Completed =
      (s.playerHeap p).Completed) := by
  unfold validateAnswer
  split
  · simp [writesOf]
  · rename_i rawData
    split
    · rename_i q hq
      split
      · rename_i a ha
        simp only
        split_ifs with hbad
        · simp [writesOf]
        · split
          · simp [writesOf]
          · rename_i question hs
            have hn := hne rawData q rfl hq
            rw [awardScore_numQuestions, if_neg hn]
            refine ⟨fun c m hm => ?_, fun p => awardScore_completed _ _ _ _ p⟩
            simp only [List.append_nil, writesOf_append, List.mem_append] at hm
            rcases hm with hm | hm
            · simp only [writesOf, List.mem_singleton, Prod.mk.injEq] at hm
              rw [hm.2]
              simp
            · obtain ⟨u, n, hm⟩ := awardScore_no_answer_result _ _ _ _ _ _ hm
              rw [hm]
              simp
      · simp [writesOf]
    · simp [writesOf]

/-- `allPlayersCompleted` holds exactly when the `Completed` flag of every player
of the map is set. -/
theorem allCompleted_iff (heap : PlayerRef → Player) (l : List (ConnRef × PlayerRef)) :
    allCompleted heap l = true ↔ ∀ e ∈ l, (heap e.2).Completed = true := by
  induction l with
  | nil => simp [allCompleted]
  | cons x rest ih =>
    by_cases hx : (heap x.2).Completed = true
    · simp [allCompleted, hx, ih]
    · have hx2 : (heap x.2).Completed = false := by simpa using hx
      simp [allCompleted, hx2]

/-- The `Completed` flags after a `validate_answer` for the last index: the flag
of the sender is set, every other flag is as before. -/
theorem validateAnswer_last_flags (ok : Nat → ConnRef → Bool) (s : Server)
    (ss : Session) (rawData : List (String × Field)) (q : ℚ) (a : String) (question : Question)
    (hq : mapGet rawData "question_index" = some (.number q))
    (ha : mapGet rawData "answer" = some (.string a))
    (hlo : 0 ≤ goInt q) (hlast : goInt q + 1 = (s.roomHeap ss.room).numQuestions)
    (hs : (s.roomHeap ss.room).question (toString (goInt q)) = some question) (p : PlayerRef) :
    ((validateAnswer ok s ss (.object rawData)).1.playerHeap p).Completed =
      if p = ss.player then true else (s.playerHeap p).Completed := by
  have hhi : goInt q < (s.roomHeap ss.room).numQuestions := by omega
  rw [validateAnswer_answered ok s ss rawData q a question hq ha hlo hhi hs]
  simp only [hlast, if_true]
  rw [finishGame_playerHeap]
  by_cases hp : p = ss.player
  · subst hp
    simp
  · rw [Function.update_noteq hp, if_neg hp]
    exact awardScore_completed _ _ _ _ p

/-- C9: in a room with `N` questions, a `validate_answer` for the index `N-1`
(in range, question stored) sets the `Completed` flag of the sender, leaves
every other flag as it was, and writes `finished_game` to every connection that
is in the room at that moment.  When the `Completed` flag of every player still
in the room after that broadcast is set, it writes `all_players_finished` to
all of them; when the flag of one of them is not set, it writes
`all_players_finished` to nobody; and every `finished_game` write comes before
every `all_players_finished` write.  For every payload that does not carry the
index `N-1` neither event is written and no `Completed` flag changes. -/
theorem last_answer_finishes_game :
    (∀ (ok : Nat → ConnRef → Bool) (s : Server) (ss : Session)
        (rawData : List (String × Field)) (q : ℚ) (a : String) (question : Question),
      mapGet rawData "question_index" = some (.number q) →
      mapGet rawData "answer" = some (.string a) →
      0 ≤ goInt q → goInt q + 1 = (s.roomHeap ss.room).numQuestions →
      (s.roomHeap ss.room).question (toString (goInt q)) = some question →
      ((handleMessage ok s ss (some ⟨"validate_answer", .object rawData⟩)).1.playerHeap
        ss.player).Completed = true ∧
      (∀ p, p ≠ ss.player →
        ((handleMessage ok s ss (some ⟨"validate_answer", .object rawData⟩)).1.playerHeap
          p).Completed = (s.playerHeap p).Completed) ∧
      sentTo (handleMessage ok s ss (some ⟨"validate_answer", .object rawData⟩)).2.1
          (.finished_game (s.playerHeap ss.player).Username) =
        mapKeys (if question.Answer = a
          then (s.roomHeap ss.room).Players.filter (fun e => ok 1 e.1)
          else (s.roomHeap ss.room).Players) ∧
      ((∀ e ∈ (if question.Answer = a
            then (s.roomHeap ss.room).Players.filter (fun e => ok 1 e.1)
            else (s.roomHeap ss.room).Players).filter (fun e => ok 2 e.1),
          e.2 = ss.player ∨ (s.playerHeap e.2).Completed = true) →
        sentTo (handleMessage ok s ss (some ⟨"validate_answer", .object rawData⟩)).2.1
            .all_players_finished =
          mapKeys ((if question.Answer = a
            then (s.roomHeap ss.room).Players.filter (fun e => ok 1 e.1)
            else (s.roomHeap ss.room).Players).filter (fun e => ok 2 e.1))) ∧
      ((∃ e ∈ (if question.Answer = a
            then (s.roomHeap ss.room).Players.filter (fun e => ok 1 e.1)
            else (s.roomHeap ss.room).Players).filter (fun e => ok 2 e.1),
          e.2 ≠ ss.player ∧ (s.playerHeap e.2).Completed = false) →
        sentTo (handleMessage ok s ss (some ⟨"validate_answer", .object rawData⟩)).2.1
            .all_players_finished = []) ∧
      (∃ pre post,
        (handleMessage ok s ss (some ⟨"validate_answer", .object rawData⟩)).2.1 = pre ++ post ∧
        sentTo pre .all_players_finished = [] ∧ ∀ u, sentTo post (.finished_game u) = [])) ∧
    (∀ (ok : Nat → ConnRef → Bool) (s : Server) (ss : Session) (data : Data),
      (∀ rawData q, data = .object rawData →
        mapGet rawData "question_index" = some (.number q) →
        goInt q + 1 ≠ (s.roomHeap ss.room).numQuestions) →
      (∀ c m, (c, m) ∈ writesOf (handleMessage ok s ss (some ⟨"validate_answer", data⟩)).2.1 →
        m ≠ Msg.all_players_finished ∧ ∀ u, m ≠ Msg.finished_game u) ∧
      (∀ p, ((handleMessage ok s ss (some ⟨"validate_answer", data⟩)).1.playerHeap p).Completed =
        (s.playerHeap p).Completed)) := by
  constructor
  · intro ok s ss rawData q a question hq ha hlo hlast hs
    rw [handleMessage_validate_answer]
    obtain ⟨h1, h2, h3, h4⟩ := validateAnswer_last ok s ss rawData q a question hq ha hlo hlast hs
    have hflag := validateAnswer_last_flags ok s ss rawData q a question hq ha hlo hlast hs
    refine ⟨h1, fun p hp => ?_, h2, fun hall => ?_, fun hsome => ?_, h4⟩
    · rw [hflag p, if_neg hp]
    · rw [h3, if_pos]
      rw [allCompleted_iff]
      intro e he
      rw [hflag e.2]
      split_ifs with hp
      · rfl
      · rcases hall e he with h | h
        · exact absurd h hp
        · exact h
    · rw [h3, if_neg]
      rw [allCompleted_iff]
      intro hall
      obtain ⟨e, he, hp, hc⟩ := hsome
      have := hall e he
      rw [hflag e.2, if_neg hp, hc] at this
      exact Bool.false_ne_true this
  · intro ok s ss data hne
    rw [handleMessage_validate_answer]
    exact validateAnswer_not_last ok s ss data hne

theorem last_answer_finishes_game_witness :
    (sentTo (handleMessage (fun _ _ => true) (quizServer [(1, 0)] false) annaSession
        (some ⟨"validate_answer", .object (answerData 1 "Italy")⟩)).2.1
        (.finished_game "anna") = [1] ∧
      sentTo (handleMessage (fun _ _ => true) (quizServer [(1, 0)] false) annaSession
        (some ⟨"validate_answer", .object (answerData 1 "Italy")⟩)).2.1
        .all_players_finished = [1]) ∧
    (sentTo (handleMessage (fun _ _ => true) (quizServer [(1, 0), (2, 1)] false) annaSession
        (some ⟨"validate_answer", .object (answerData 1 "Italy")⟩)).2.1
        (.finished_game "anna") = [1, 2] ∧
      sentTo (handleMessage (fun _ _ => true) (quizServer [(1, 0), (2, 1)] false) annaSession
        (some ⟨"validate_answer", .object (answerData 1 "Italy")⟩)).2.1
        .all_players_finished = []) :=
  have h := last_answer_finishes_game.1 (fun _ _ => true) (quizServer [(1, 0)] false) annaSession
    (answerData 1 "Italy") 1 "Italy" ⟨"/static/svg/it.svg", ["Italy", "Spain"], "Italy"⟩
    (by decide) (by decide) (by decide) (by decide) (by decide)
  have h2 := last_answer_finishes_game.1 (fun _ _ => true) (quizServer [(1, 0), (2, 1)] false)
    annaSession (answerData 1 "Italy") 1 "Italy"
    ⟨"/static/svg/it.svg", ["Italy", "Spain"], "Italy"⟩
    (by decide) (by decide) (by decide) (by decide) (by decide)
  ⟨⟨h.2.2.1.trans (by decide), (h.2.2.2.1 (by decide)).trans (by decide)⟩,
    ⟨h2.2.2.1.trans (by decide), h2.2.2.2.2.1 ⟨(2, 1), by decide, by decide, by decide⟩⟩⟩

/-! ## Fetching a question -/

theorem getQuestion_error_iff (room : Room) (i : Int) (hw : WellStored room) :
    (∃ e, getQuestion (some room) i = Except.error e) ↔ (i < 0 ∨ i ≥ room.numQuestions) := by
  unfold getQuestion
  rcases hqs : room.Questions with _ | qs
  · simp only [Room.numQuestions, hqs]
    constructor
    · intro _; omega
    · intro _; exact ⟨_, rfl⟩
  · simp only [Room.numQuestions, hqs]
    by_cases hneg : i < 0
    · simp [hneg]
    · by_cases hbig : i ≥ mapLen qs
      · simp [hneg, hbig]
      · have hsome := hw i (by omega) (by simp only [Room.numQuestions, hqs]; omega)
        simp only [Room.question, hqs] at hsome
        rcases hget : mapGet qs (toString i) with _ | question
        · simp [hget] at hsome
        · simp only [hneg, hbig, if_false, or_self, iff_false, not_exists]
          intro e
          split_ifs <;> simp

theorem quizRoom_wellStored : WellStored (quizRoom [] false) := by
  intro i h0 h1
  have h2 : i < 2 := h1
  have hi : i = 0 ∨ i = 1 := by omega
  rcases hi with hi | hi <;> subst hi <;> decide

/-- C10: in a room whose `N` questions are stored under the indices `0 .. N-1`,
`getQuestion(room, i)` returns an error exactly when `i < 0` or `i >= N`, in
particular for `i = -1` and `i = N`; and whenever `getQuestion` returns an
error the `get_new_question` handler writes one error message, to the
requester, and leaves the whole state (players, questions, start flags,
scores) as it was. -/
theorem getQuestion_out_of_range :
    (∀ (room : Room) (i : Int), WellStored room →
      ((∃ e, getQuestion (some room) i = Except.error e) ↔ (i < 0 ∨ i ≥ room.numQuestions))) ∧
    (∀ room : Room, WellStored room →
      (∃ e, getQuestion (some room) (-1) = Except.error e) ∧
      (∃ e, getQuestion (some room) room.numQuestions = Except.error e)) ∧
    (∀ (ok : Nat → ConnRef → Bool) (s : Server) (ss : Session)
        (rawData : List (String × Field)) (q : ℚ),
      mapGet rawData "question_number" = some (.number q) →
      (∃ e, getQuestion (some (s.roomHeap ss.room)) (goInt q) = Except.error e) →
      handleMessage ok s ss (some ⟨"get_new_question", .object rawData⟩) =
        (s, [Effect.write ss.conn (.error "Failed to get question") (ok 0 ss.conn)],
          Flow.next)) := by
  refine ⟨fun room i hw => getQuestion_error_iff room i hw, fun room hw => ⟨?_, ?_⟩, ?_⟩
  · exact (getQuestion_error_iff room (-1) hw).mpr (Or.inl (by omega))
  · exact (getQuestion_error_iff room room.numQuestions hw).mpr (Or.inr (le_refl _))
  · intro ok s ss rawData q hq herr
    obtain ⟨e, he⟩ := herr
    simp [handleMessage, getNewQuestion, hq, he]

theorem getQuestion_out_of_range_witness :
    (∃ e, getQuestion (some (quizRoom [] false)) 2 = Except.error e) ∧
    handleMessage (fun _ _ => true) (quizServer [(1, 0)] false) annaSession
        (some ⟨"get_new_question", .object [("question_number", Field.number (-1))]⟩) =
      (quizServer [(1, 0)] false,
        [Effect.write annaSession.conn (.error "Failed to get question") true], Flow.next) :=
  ⟨(getQuestion_out_of_range.1 (quizRoom [] false) 2 quizRoom_wellStored).mpr
      (Or.inr (by decide)),
    getQuestion_out_of_range.2.2 (fun _ _ => true) (quizServer [(1, 0)] false) annaSession
      [("question_number", Field.number (-1))] (-1) (by decide)
      ⟨"question number must be non-negative", by
        have h : goInt (-1) = -1 := by decide
        rw [h]
        rfl⟩⟩

/-- The payload `getQuestion` builds for a stored question: the flag URL and, in
MCQ mode, the options. -/
theorem getQuestion_ok (room : Room) (i : Int) (question : Question)
    (h0 : 0 ≤ i) (hi : i < room.numQuestions)
    (hs : room.question (toString i) = some question) :
    getQuestion (some room) i =
      Except.ok (if room.GameMode = "MCQ"
        then [("flag_url", Value.str question.FlagURL), ("options", Value.strs question.Options)]
        else [("flag_url", Value.str question.FlagURL)]) := by
  rcases hqs : room.Questions with _ | qs
  · simp [Room.question, hqs] at hs
  · simp only [Room.question, hqs] at hs
    simp only [Room.numQuestions, hqs] at hi
    have hneg : ¬ i < 0 := by omega
    have hbig : ¬ i ≥ mapLen qs := by omega
    simp only [getQuestion, hqs, hneg, hbig, if_false, hs]
    split_ifs
    · simp [mapSet]
    · rfl

/-- C11: for an index in range whose question is stored, the payload returned by
`getQuestion` holds the flag URL under `flag_url`, holds the options under
`options` exactly when the game mode of the room is `MCQ`, and holds no other
field, in particular none named `answer`; the `get_new_question` handler writes
this payload, and nothing else, to the requester as `new_question`. -/
theorem new_question_payload (room : Room) (i : Int) (question : Question)
    (h0 : 0 ≤ i) (hi : i < room.numQuestions)
    (hs : room.question (toString i) = some question) :
    ∃ data, getQuestion (some room) i = Except.ok data ∧
      mapGet data "flag_url" = some (Value.str question.FlagURL) ∧
      (room.GameMode = "MCQ" → mapGet data "options" = some (Value.strs question.Options)) ∧
      (room.GameMode ≠ "MCQ" → mapGet data "options" = none) ∧
      (∀ k, k ≠ "flag_url" → k ≠ "options" → mapGet data k = none) ∧
      mapGet data "answer" = none ∧
      (∀ (ok : Nat → ConnRef → Bool) (s : Server) (ss : Session)
          (rawData : List (String × Field)) (q : ℚ),
        s.roomHeap ss.room = room → mapGet rawData "question_number" = some (.number q) →
        goInt q = i →
        handleMessage ok s ss (some ⟨"get_new_question", .object rawData⟩) =
          (s, [Effect.write ss.conn (.new_question data) (ok 0 ss.conn)], Flow.next)) := by
  refine ⟨_, getQuestion_ok room i question h0 hi hs, ?_, ?_, ?_, ?_, ?_, ?_⟩
  · split_ifs <;> simp [mapGet]
  · intro hm
    simp [hm, mapGet]
  · intro hm
    simp [hm, mapGet]
  · intro k hk1 hk2
    have h1 : ¬ "flag_url" = k := fun h => hk1 h.symm
    have h2 : ¬ "options" = k := fun h => hk2 h.symm
    split_ifs <;> simp [mapGet, h1, h2]
  · split_ifs <;> simp [mapGet]
  · intro ok s ss rawData q hroom hq hqi
    subst hroom
    subst hqi
    simp [handleMessage, getNewQuestion, hq, getQuestion_ok _ _ question h0 hi hs]

theorem new_question_payload_witness :
    ∃ data, getQuestion (some (quizRoom [] false)) 1 = Except.ok data ∧
      mapGet data "flag_url" = some (Value.str "/static/svg/it.svg") ∧
      mapGet data "options" = some (Value.strs ["Italy", "Spain"]) ∧
      mapGet data "answer" = none :=
  have h := new_question_payload (quizRoom [] false) 1
    ⟨"/static/svg/it.svg", ["Italy", "Spain"], "Italy"⟩ (by decide) (by decide) (by decide)
  h.elim (fun data hd => ⟨data, hd.1, hd.2.1, hd.2.2.1 (by decide), hd.2.2.2.2.2.1⟩)

/-! ## The broadcaster -/

theorem closesOf_append (a b : List Effect) : closesOf (a ++ b) = closesOf a ++ closesOf b := by
  induction a with
  | nil => rfl
  | cons e rest ih =>
    cases e with
    | write c m d => simp [closesOf, ih]
    | close c => simp [closesOf, ih]

theorem outcomesOf_append (a b : List Effect) :
    outcomesOf (a ++ b) = outcomesOf a ++ outcomesOf b := by
  induction a with
  | nil => rfl
  | cons e rest ih =>
    cases e with
    | write c m d => simp [outcomesOf, ih]
    | close c => simp [outcomesOf, ih]

theorem broadcastFold_closes (ok : ConnRef → Bool) (msg : Msg) (l : List (ConnRef × PlayerRef)) :
    ∀ (cur : List (ConnRef × PlayerRef)) (eff : List Effect),
      closesOf (l.foldl (broadcastStep ok msg) (cur, eff)).2 =
        closesOf eff ++ (l.filter (fun e => !ok e.1)).map Prod.fst := by
  induction l with
  | nil => intro cur eff; simp
  | cons x rest ih =>
    intro cur eff
    rw [List.foldl_cons]
    by_cases hx : ok x.1 = true
    · simp only [broadcastStep, hx, if_true]
      rw [ih, closesOf_append]
      simp [closesOf, hx]
    · simp only [broadcastStep, hx, Bool.false_eq_true, if_false]
      rw [ih, closesOf_append]
      simp [closesOf, hx]

theorem broadcastFold_outcomes (ok : ConnRef → Bool) (msg : Msg)
    (l : List (ConnRef × PlayerRef)) :
    ∀ (cur : List (ConnRef × PlayerRef)) (eff : List Effect),
      outcomesOf (l.foldl (broadcastStep ok msg) (cur, eff)).2 =
        outcomesOf eff ++ l.map (fun e => (e.1, ok e.1)) := by
  induction l with
  | nil => intro cur eff; simp
  | cons x rest ih =>
    intro cur eff
    rw [List.foldl_cons]
    by_cases hx : ok x.1 = true
    · simp only [broadcastStep, hx, if_true]
      rw [ih, outcomesOf_append]
      simp [outcomesOf, hx]
    · simp only [broadcastStep, hx, Bool.false_eq_true, if_false]
      rw [ih, outcomesOf_append]
      simp [outcomesOf, hx]

/-- C14: for every room and every table of delivery outcomes, `broadcastToRoom`
writes the message once to every connection registered when it is called, each
write with the outcome of the table; afterwards the player set of the room is
exactly the entries whose delivery succeeded, in their old order and with their
old player pointers; the connections closed are exactly those whose delivery
failed; and nothing else changes: not the other fields of the room, not the
other rooms, not the registry, not any player object. -/
theorem broadcastToRoom_contract (ok : ConnRef → Bool) (s : Server) (room : RoomRef)
    (msg : Msg) :
    writesOf (broadcastToRoom ok s room msg).2 =
      (s.roomHeap room).Players.map (fun e => (e.1, msg)) ∧
    outcomesOf (broadcastToRoom ok s room msg).2 =
      (s.roomHeap room).Players.map (fun e => (e.1, ok e.1)) ∧
    ((broadcastToRoom ok s room msg).1.roomHeap room).Players =
      (s.roomHeap room).Players.filter (fun e => ok e.1) ∧
    (∀ e, e ∈ ((broadcastToRoom ok s room msg).1.roomHeap room).Players ↔
      e ∈ (s.roomHeap room).Players ∧ ok e.1 = true) ∧
    closesOf (broadcastToRoom ok s room msg).2 =
      ((s.roomHeap room).Players.filter (fun e => !ok e.1)).map Prod.fst ∧
    (∀ c, c ∈ closesOf (broadcastToRoom ok s room msg).2 ↔
      c ∈ mapKeys (s.roomHeap room).Players ∧ ok c = false) ∧
    (broadcastToRoom ok s room msg).1.roomHeap room =
      { s.roomHeap room with Players := (s.roomHeap room).Players.filter (fun e => ok e.1) } ∧
    (∀ r, r ≠ room → (broadcastToRoom ok s room msg).1.roomHeap r = s.roomHeap r) ∧
    (broadcastToRoom ok s room msg).1.playerHeap = s.playerHeap ∧
    (broadcastToRoom ok s room msg).1.rooms = s.rooms := by
  have hc : closesOf (broadcastToRoom ok s room msg).2 =
      ((s.roomHeap room).Players.filter (fun e => !ok e.1)).map Prod.fst := by
    simp only [broadcastToRoom, broadcastFold_closes, closesOf, List.nil_append]
  refine ⟨broadcastToRoom_writes ok s room msg, ?_, broadcastToRoom_players_self ok s room msg,
    ?_, hc, ?_, ?_, ?_, broadcastToRoom_playerHeap ok s room msg,
    broadcastToRoom_rooms ok s room msg⟩
  · simp only [broadcastToRoom, broadcastFold_outcomes, outcomesOf, List.nil_append]
  · intro e
    rw [broadcastToRoom_players_self, List.mem_filter]
  · intro c
    rw [hc]
    simp only [mapKeys, List.mem_map, List.mem_filter, Bool.not_eq_true', Prod.exists]
    constructor
    · rintro ⟨a, b, ⟨hmem, hok⟩, rfl⟩
      exact ⟨⟨a, b, hmem, rfl⟩, hok⟩
    · rintro ⟨⟨a, b, hmem, rfl⟩, hok⟩
      exact ⟨a, b, ⟨hmem, hok⟩, rfl⟩
  · rw [broadcastToRoom_fst]
    simp [Server.setPlayers]
  · intro r hr
    rw [broadcastToRoom_fst]
    simp [Server.setPlayers, Function.update_noteq hr]

/-! ## The periodic cleanup -/

/-- The registry left by the loop of `cleanupEmptyRooms` over the entries `l`,
started with the registry `acc`: an entry stays unless `l` holds an entry with
its code whose room has no player. -/
theorem cleanupFold_eq (s : Server) (l : List (String × RoomRef)) :
    ∀ acc : List (String × RoomRef),
      l.foldl (cleanupStep s) acc =
        acc.filter (fun e =>
          !(l.any (fun x => decide (x.1 = e.1) && decide ((s.roomHeap x.2).Players = [])))) := by
  induction l with
  | nil => intro acc; simp
  | cons x rest ih =>
    intro acc
    rw [List.foldl_cons, ih]
    by_cases hx : (s.roomHeap x.2).Players = []
    · have h0 : mapLen (s.roomHeap x.2).Players = 0 := (mapLen_eq_zero _).mpr hx
      simp only [cleanupStep, h0, if_true, mapDelete, List.filter_filter]
      apply List.filter_congr
      intro e _
      by_cases hk : x.1 = e.1
      · simp [List.any_cons, hx, hk]
      · have hk2 : ¬ e.1 = x.1 := fun h => hk h.symm
        simp [List.any_cons, hk, hk2]
    · have h0 : ¬ mapLen (s.roomHeap x.2).Players = 0 := fun h => hx ((mapLen_eq_zero _).mp h)
      simp only [cleanupStep, h0, if_false]
      apply List.filter_congr
      intro e _
      simp [List.any_cons, hx]

/-- C15: on a registry with one entry per code, as every Go map is,
`cleanupEmptyRooms` leaves exactly the entries whose room has at least one
player, in their old order: every entry of a room without players is removed
and no other; the rooms and the players themselves are not touched. -/
theorem cleanupEmptyRooms_contract (s : Server) (h : (mapKeys s.rooms).Nodup) :
    (cleanupEmptyRooms s).rooms =
      s.rooms.filter (fun e => decide ((s.roomHeap e.2).Players ≠ [])) ∧
    (∀ e, e ∈ (cleanupEmptyRooms s).rooms ↔ e ∈ s.rooms ∧ (s.roomHeap e.2).Players ≠ []) ∧
    (∀ code ref, mapGet s.rooms code = some ref → (s.roomHeap ref).Players = [] →
      mapGet (cleanupEmptyRooms s).rooms code = none) ∧
    (cleanupEmptyRooms s).roomHeap = s.roomHeap ∧
    (cleanupEmptyRooms s).playerHeap = s.playerHeap := by
  have hrooms : (cleanupEmptyRooms s).rooms =
      s.rooms.filter (fun e => decide ((s.roomHeap e.2).Players ≠ [])) := by
    show s.rooms.foldl (cleanupStep s) s.rooms = _
    rw [cleanupFold_eq]
    apply List.filter_congr
    intro e he
    by_cases hx : (s.roomHeap e.2).Players = []
    · have : s.rooms.any (fun x => decide (x.1 = e.1) &&
          decide ((s.roomHeap x.2).Players = [])) = true :=
        List.any_eq_true.mpr ⟨e, he, by simp [hx]⟩
      simp [this, hx]
    · have : s.rooms.any (fun x => decide (x.1 = e.1) &&
          decide ((s.roomHeap x.2).Players = [])) = false := by
        rw [List.any_eq_false]
        intro x hxm hcontra
        simp only [Bool.and_eq_true, decide_eq_true_eq] at hcontra
        have hxe : x = e := List.inj_on_of_nodup_map h hxm he hcontra.1
        exact hx (hxe ▸ hcontra.2)
      simp [this, hx]
  refine ⟨hrooms, fun e => ?_, fun code ref hget hempty => ?_, rfl, rfl⟩
  · rw [hrooms, List.mem_filter]
    simp
  · rw [hrooms]
    rcases hres : mapGet (s.rooms.filter (fun e => decide ((s.roomHeap e.2).Players ≠ [])))
        code with _ | ref2
    · rfl
    · exfalso
      have hmem2 := mem_of_mapGet _ _ _ hres
      rw [List.mem_filter] at hmem2
      have hmem1 := mem_of_mapGet _ _ _ hget
      have heq : (code, ref2) = (code, ref) := List.inj_on_of_nodup_map h hmem2.1 hmem1 rfl
      have href : ref2 = ref := congrArg Prod.snd heq
      subst href
      simp [hempty] at hmem2

theorem cleanupEmptyRooms_contract_witness :
    (mapKeys twoRoomServer.rooms).Nodup ∧
    (cleanupEmptyRooms twoRoomServer).rooms = [("42", 0)] :=
  ⟨by decide,
    (cleanupEmptyRooms_contract twoRoomServer (by decide)).1.trans (by decide)⟩

/-! ## The registry keeps one entry per code -/

theorem RegistrySub.reflexive (s : Server) : RegistrySub s s := List.Sublist.refl _

theorem RegistrySub.chain {s t u : Server} (h1 : RegistrySub s t) (h2 : RegistrySub t u) :
    RegistrySub s u :=
  List.Sublist.trans h2 h1

theorem RegistrySub.nodup {s t : Server} (h : RegistrySub s t) (hs : RegistryNodup s) :
    RegistryNodup t :=
  List.Nodup.sublist (List.Sublist.map Prod.fst h) hs

theorem RegistrySub.of_rooms_eq {s t : Server} (h : t.rooms = s.rooms) : RegistrySub s t := by
  unfold RegistrySub
  rw [h]

theorem deleteRoom_registrySub (s : Server) (roomID : String) :
    RegistrySub s { s with rooms := mapDelete s.rooms roomID } :=
  mapDelete_sublist _ _

theorem broadcastToRoom_registrySub (ok : ConnRef → Bool) (s : Server) (room : RoomRef)
    (msg : Msg) : RegistrySub s (broadcastToRoom ok s room msg).1 :=
  RegistrySub.of_rooms_eq (broadcastToRoom_rooms ok s room msg)

theorem removePlayerFromRoom_registrySub (ok : ConnRef → Bool) (s : Server) (roomID : String)
    (room : RoomRef) (conn : ConnRef) (player : PlayerRef) :
    RegistrySub s (removePlayerFromRoom ok s roomID room conn player).1 := by
  rw [removePlayerFromRoom_fst]
  unfold RegistrySub
  simp only [setPlayers_rooms]
  split_ifs
  · exact mapDelete_sublist _ _
  · exact List.Sublist.refl _

theorem setPlayer_registrySub (s : Server) (player : PlayerRef) (v : Player) :
    RegistrySub s (s.setPlayer player v) := List.Sublist.refl _

theorem setStart_registrySub (s : Server) (room : RoomRef) :
    RegistrySub s (s.setStart room) := List.Sublist.refl _

theorem loadgame_registrySub (ok : Nat → ConnRef → Bool) (s : Server) (ss : Session) :
    RegistrySub s (loadgame ok s ss).1 := by
  unfold loadgame
  exact (((((broadcastToRoom_registrySub _ _ _ _).chain
    (broadcastToRoom_registrySub _ _ _ _)).chain (broadcastToRoom_registrySub _ _ _ _)).chain
    (broadcastToRoom_registrySub _ _ _ _)).chain (setStart_registrySub _ _)).chain
    (broadcastToRoom_registrySub _ _ _ _)

theorem gameTimer_registrySub (ok : ConnRef → Bool) (s : Server) (room : RoomRef) :
    RegistrySub s (gameTimer ok s room).1 := by
  unfold gameTimer
  exact (broadcastToRoom_registrySub _ _ _ _).chain (deleteRoom_registrySub _ _)

theorem cleanRoom_registrySub (s : Server) (ss : Session) :
    RegistrySub s (cleanRoom s ss).1 := by
  unfold cleanRoom
  split_ifs
  · exact deleteRoom_registrySub _ _
  · exact RegistrySub.reflexive _

theorem awardScore_registrySub (ok : ConnRef → Bool) (s : Server) (ss : Session) (c : Bool) :
    RegistrySub s (awardScore ok s ss c).1 := by
  unfold awardScore
  split_ifs
  · exact (setPlayer_registrySub _ _ _).chain (broadcastToRoom_registrySub _ _ _ _)
  · exact RegistrySub.reflexive _

theorem finishGame_registrySub (ok2 ok3 : ConnRef → Bool) (s : Server) (ss : Session) :
    RegistrySub s (finishGame ok2 ok3 s ss).1 := by
  unfold finishGame
  simp only
  split_ifs
  · exact ((setPlayer_registrySub _ _ _).chain (broadcastToRoom_registrySub _ _ _ _)).chain
      (broadcastToRoom_registrySub _ _ _ _)
  · exact (setPlayer_registrySub _ _ _).chain (broadcastToRoom_registrySub _ _ _ _)

theorem validateAnswer_registrySub (ok : Nat → ConnRef → Bool) (s : Server) (ss : Session)
    (data : Data) : RegistrySub s (validateAnswer ok s ss data).1 := by
  unfold validateAnswer
  split
  · exact RegistrySub.reflexive _
  · split
    · split
      · simp only
        split_ifs
        · exact RegistrySub.reflexive _
        · split
          · exact RegistrySub.reflexive _
          · simp only
            split_ifs
            · exact (awardScore_registrySub _ _ _ _).chain (finishGame_registrySub _ _ _ _)
            · exact awardScore_registrySub _ _ _ _
      · exact RegistrySub.reflexive _
    · exact RegistrySub.reflexive _

theorem handleMessage_registrySub (ok : Nat → ConnRef → Bool) (s : Server) (ss : Session)
    (message : Option Message) : RegistrySub s (handleMessage ok s ss message).1 := by
  unfold handleMessage
  split
  · exact removePlayerFromRoom_registrySub _ _ _ _ _ _
  · simp only
    split_ifs
    · exact removePlayerFromRoom_registrySub _ _ _ _ _ _
    · exact loadgame_registrySub _ _ _
    · exact RegistrySub.reflexive _
    · exact cleanRoom_registrySub _ _
    · exact validateAnswer_registrySub _ _ _ _
    · exact RegistrySub.reflexive _

theorem cleanupEmptyRooms_registrySub (s : Server) : RegistrySub s (cleanupEmptyRooms s) := by
  show List.Sublist (s.rooms.foldl (cleanupStep s) s.rooms) s.rooms
  rw [cleanupFold_eq]
  exact List.filter_sublist _

theorem mapGet_eq_none_iff {κ ν : Type} [DecidableEq κ] (m : List (κ × ν)) (k : κ) :
    mapGet m k = none ↔ k ∉ mapKeys m := by
  induction m with
  | nil => simp [mapGet, mapKeys]
  | cons e rest ih =>
    obtain ⟨k0, v0⟩ := e
    by_cases hk : k0 = k
    · simp [mapGet, mapKeys, hk]
    · have hk2 : ¬ k = k0 := fun h => hk h.symm
      simp only [mapGet, hk, if_false, ih]
      simp [mapKeys, hk2]

theorem mapKeys_mapSet {κ ν : Type} [DecidableEq κ] (m : List (κ × ν)) (k : κ) (v : ν) :
    mapKeys (mapSet m k v) = if k ∈ mapKeys m then mapKeys m else mapKeys m ++ [k] := by
  induction m with
  | nil => simp [mapSet, mapKeys]
  | cons e rest ih =>
    obtain ⟨k0, v0⟩ := e
    by_cases hk : k0 = k
    · subst hk
      simp [mapSet, mapKeys]
    · have hk2 : ¬ k = k0 := fun h => hk h.symm
      simp only [mapSet, hk, if_false]
      simp only [mapKeys, List.map_cons, List.mem_cons, hk2, false_or] at ih ⊢
      rw [ih]
      split_ifs <;> simp

theorem mapSet_nodup {κ ν : Type} [DecidableEq κ] (m : List (κ × ν)) (k : κ) (v : ν)
    (h : (mapKeys m).Nodup) : (mapKeys (mapSet m k v)).Nodup := by
  rw [mapKeys_mapSet]
  split_ifs with hk
  · exact h
  · exact List.Nodup.append h (List.nodup_singleton k) (by simpa using hk)

theorem createRoomHandler_registryNodup
    (gen : Int → String → Except String (List Question)) (draw : Nat) (s : Server)
    (call : CreateRoomCall) (hs : RegistryNodup s) :
    RegistryNodup (createRoomHandler gen draw s call).1 := by
  rcases createRoomHandler_cases gen draw s call with ⟨h1, _⟩ | ⟨_, _, _, _, _, h2⟩
  · rw [h1]; exact hs
  · rw [h2]
    exact mapSet_nodup _ _ _ hs

theorem step_registryNodup (s : Server) (op : Op) (hs : RegistryNodup s) :
    RegistryNodup (step s op) := by
  cases op with
  | create gen draw call => exact createRoomHandler_registryNodup gen draw s call hs
  | connect ok draw conn first =>
    exact (RegistrySub.of_rooms_eq (handshake_rooms ok draw s conn first)).nodup hs
  | message ok ss message => exact (handleMessage_registrySub ok s ss message).nodup hs
  | broadcast ok room msg => exact (broadcastToRoom_registrySub ok s room msg).nodup hs
  | timer ok room => exact (gameTimer_registrySub ok s room).nodup hs
  | cleanup => exact (cleanupEmptyRooms_registrySub s).nodup hs

/-- In every state reached from the start state the registry has one entry per
code. -/
theorem run_registryNodup (ops : List Op) :
    ∀ s : Server, RegistryNodup s → RegistryNodup (run s ops) := by
  induction ops with
  | nil => intro s hs; exact hs
  | cons op rest ih =>
    intro s hs
    exact ih _ (step_registryNodup s op hs)

theorem start_registryNodup : RegistryNodup Server.start := by
  simp [RegistryNodup, Server.start, mapKeys]

/-! ## The join pre-check -/

/-- The pre-check on an existing room that is neither started nor full, for a
username that passes the shape check: only the username loop decides. -/
theorem joinRoomHandler_open_room (equalFold : String → String → Bool) (s : Server)
    (username roomID : String) (ref : RoomRef)
    (hlo : 4 ≤ username.utf8ByteSize) (hhi : username.utf8ByteSize ≤ 20) (hid : roomID ≠ "")
    (hroom : mapGet s.rooms roomID = some ref) (hstart : (s.roomHeap ref).Start = false)
    (hfull : mapLen (s.roomHeap ref).Players < 9) :
    joinRoomHandler equalFold s ⟨"POST", some (username, roomID)⟩ =
      if (s.roomHeap ref).Players.any
          (fun e => equalFold (s.playerHeap e.2).Username username) = true then
        Response.failure 409
          ("Username '" ++ username ++ "' is already taken. Please choose another username.")
      else
        Response.success
          { code := (s.roomHeap ref).Code, host := (s.roomHeap ref).Hostname,
            players := getSerializablePlayers s.playerHeap (s.roomHeap ref),
            start := none, timeLimit := (s.roomHeap ref).TimeLimit,
            numQuestions := (s.roomHeap ref).numQuestions, gamemode := none } := by
  have hne : username ≠ "" := by
    intro h
    subst h
    revert hlo
    decide
  have hshape : ¬ (username = "" ∨ username.utf8ByteSize < 4 ∨ username.utf8ByteSize > 20) := by
    intro h
    rcases h with h | h | h
    · exact hne h
    · omega
    · omega
  have hnf : ¬ mapLen (s.roomHeap ref).Players ≥ 9 := by omega
  simp only [joinRoomHandler, ne_eq, not_true_eq_false, if_false, hshape, hid, hroom, hstart,
    Bool.false_eq_true, hnf]

/-- The username loop of the pre-check, for the names that pass its shape check
(4 to 20 bytes): on an existing room that is neither started nor full, for a
username that passes the shape check, the pre-check answers 409 exactly when
`strings.EqualFold` matches the username of a player currently in the room,
and 200 otherwise; once the players that matched are removed and the room is
still registered, the same username is accepted; and the pre-check returns the
state it was given. -/
theorem join_conflict_iff_current_player (equalFold : String → String → Bool) (s : Server)
    (username roomID : String) (ref : RoomRef)
    (hlo : 4 ≤ username.utf8ByteSize) (hhi : username.utf8ByteSize ≤ 20) (hid : roomID ≠ "")
    (hroom : mapGet s.rooms roomID = some ref) (hstart : (s.roomHeap ref).Start = false)
    (hfull : mapLen (s.roomHeap ref).Players < 9) :
    ((joinRoomHandler equalFold s ⟨"POST", some (username, roomID)⟩).status = 409 ↔
      ∃ e ∈ (s.roomHeap ref).Players,
        equalFold (s.playerHeap e.2).Username username = true) ∧
    ((¬ ∃ e ∈ (s.roomHeap ref).Players,
        equalFold (s.playerHeap e.2).Username username = true) →
      (joinRoomHandler equalFold s ⟨"POST", some (username, roomID)⟩).status = 200) ∧
    (∀ (ok : ConnRef → Bool) (conn : ConnRef) (player : PlayerRef),
      mapDelete (s.roomHeap ref).Players conn ≠ [] →
      (∀ e ∈ (s.roomHeap ref).Players, e.1 ≠ conn →
        equalFold (s.playerHeap e.2).Username username = false) →
      (joinRoomHandler equalFold (removePlayerFromRoom ok s roomID ref conn player).1
        ⟨"POST", some (username, roomID)⟩).status = 200) ∧
    (joinRoomStep equalFold s ⟨"POST", some (username, roomID)⟩).1 = s := by
  have hmain := joinRoomHandler_open_room equalFold s username roomID ref hlo hhi hid hroom
    hstart hfull
  refine ⟨?_, ?_, ?_, rfl⟩
  · rw [hmain]
    constructor
    · intro h
      split_ifs at h with hany
      · obtain ⟨e, he, hm⟩ := List.any_eq_true.mp hany
        exact ⟨e, he, hm⟩
      · simp [Response.status] at h
    · rintro ⟨e, he, hm⟩
      rw [if_pos (List.any_eq_true.mpr ⟨e, he, hm⟩)]
      rfl
  · intro hno
    rw [hmain, if_neg]
    · rfl
    · intro hany
      obtain ⟨e, he, hm⟩ := List.any_eq_true.mp hany
      exact hno ⟨e, he, hm⟩
  · intro ok conn player hrest hnomatch
    have hfst := removePlayerFromRoom_fst ok s roomID ref conn player
    have hrooms : (removePlayerFromRoom ok s roomID ref conn player).1.rooms = s.rooms := by
      rw [hfst]
      simp [hrest]
    have hplayers : ((removePlayerFromRoom ok s roomID ref conn player).1.roomHeap ref).Players =
        (mapDelete (s.roomHeap ref).Players conn).filter (fun e => ok e.1) := by
      rw [hfst]
      exact setPlayers_players_self _ _ _
    have hheap : (removePlayerFromRoom ok s roomID ref conn player).1.playerHeap =
        s.playerHeap := by
      rw [hfst]; rfl
    have hstart2 : ((removePlayerFromRoom ok s roomID ref conn player).1.roomHeap ref).Start =
        false := by
      rw [hfst]
      simpa using hstart
    have hsub : List.Sublist
        ((removePlayerFromRoom ok s roomID ref conn player).1.roomHeap ref).Players
        (s.roomHeap ref).Players := by
      rw [hplayers]
      exact (List.filter_sublist _).trans (mapDelete_sublist _ _)
    have hfull2 : mapLen ((removePlayerFromRoom ok s roomID ref conn player).1.roomHeap
        ref).Players < 9 := by
      have := hsub.length_le
      simp only [mapLen] at hfull ⊢
      omega
    rw [joinRoomHandler_open_room equalFold _ username roomID ref hlo hhi hid
      (by rw [hrooms]; exact hroom) hstart2 hfull2, if_neg]
    · rfl
    · intro hany
      obtain ⟨e, he, hm⟩ := List.any_eq_true.mp hany
      rw [hplayers, List.mem_filter, mem_mapDelete] at he
      rw [hheap, hnomatch e he.1.1 he.1.2] at hm
      exact Bool.false_ne_true hm

theorem join_conflict_iff_current_player_witness :
    (joinRoomHandler asciiFold (quizServer [(1, 0), (2, 1)] false)
      ⟨"POST", some ("ANNA", "42")⟩).status = 409 ∧
    (joinRoomHandler asciiFold
      (removePlayerFromRoom (fun _ => true) (quizServer [(1, 0), (2, 1)] false) "42" 0 1 0).1
      ⟨"POST", some ("ANNA", "42")⟩).status = 200 :=
  have h := join_conflict_iff_current_player asciiFold (quizServer [(1, 0), (2, 1)] false)
    "ANNA" "42" 0 (by decide) (by decide) (by decide) (by decide) (by decide) (by decide)
  ⟨h.1.mpr ⟨(1, 0), by decide, by decide⟩,
    h.2.2.1 (fun _ => true) 1 0 (by decide) (by decide)⟩

/-! ## Question generation -/

theorem swapAt_length {α : Type} (l : List α) (i j : Nat) : (swapAt l i j).length = l.length := by
  unfold swapAt
  split
  · simp
  · rfl

theorem shuffleFrom_length {α : Type} (draw : Nat → Nat) :
    ∀ (i : Nat) (l : List α), (shuffleFrom draw i l).length = l.length := by
  intro i
  induction i with
  | zero => intro l; rfl
  | succ i ih =>
    intro l
    simp only [shuffleFrom]
    rw [ih, swapAt_length]

theorem shuffle_length {α : Type} (draw : Nat → Nat) (l : List α) :
    (shuffle draw l).length = l.length :=
  shuffleFrom_length draw _ l

/-- `selectRandomCountries` returns `count` rows, or all of them when the dataset
has fewer. -/
theorem selectRandomCountries_length (draw : Nat → Nat) (rows selected : List (List String))
    (count : Int) (h0 : 0 ≤ count)
    (h : selectRandomCountries draw rows count = some selected) :
    (selected.length : Int) = min count (rows.length : Int) := by
  have hlen := shuffle_length draw rows
  by_cases h1 : ((shuffle draw rows).length : Int) < count
  · simp only [selectRandomCountries, h1, if_true, Option.some.injEq] at h
    rw [← h, min_eq_right (by omega)]
    omega
  · have h2 : ¬ count < 0 := by omega
    simp only [selectRandomCountries, h1, h2, if_false, Option.some.injEq] at h
    rw [← h, List.length_take, min_eq_left (by omega)]
    omega

theorem buildQuestions_length (filepathJoin : String → String → String) (draws : QuestionDraws)
    (selectedCountries : List (List String)) (gameType : String) :
    ∀ (rest : List (List String)) (i : Nat) (questions : List Question),
      buildQuestions filepathJoin draws selectedCountries gameType i rest = some questions →
      questions.length = rest.length := by
  intro rest
  induction rest with
  | nil =>
    intro i questions h
    simp only [buildQuestions, Option.some.injEq] at h
    rw [← h]
    rfl
  | cons row rest ih =>
    intro i questions h
    simp only [buildQuestions] at h
    rcases hq : buildQuestion filepathJoin draws selectedCountries gameType i row with _ | q
    · simp [hq] at h
    · rcases hqs : buildQuestions filepathJoin draws selectedCountries gameType (i + 1) rest
        with _ | qs
      · simp [hq, hqs] at h
      · simp only [hq, hqs, Option.some.injEq] at h
        rw [← h, List.length_cons, ih (i + 1) qs hqs, List.length_cons]

/-- `generateQuestions` returns as many questions as were asked for, or as many
as the dataset has rows when it has fewer. -/
theorem generateQuestions_length (rows : List (List String)) (draws : QuestionDraws)
    (filepathJoin : String → String → String) (numQuestions : Int) (gameType : String)
    (questions : List Question) (h0 : 0 ≤ numQuestions)
    (h : generateQuestions (.ok rows) draws filepathJoin numQuestions gameType =
      some (.ok questions)) :
    (questions.length : Int) = min numQuestions (rows.length : Int) := by
  simp only [generateQuestions] at h
  rcases hsel : selectRandomCountries draws.rows rows numQuestions with _ | selected
  · simp [hsel] at h
  · rcases hq : buildQuestions filepathJoin draws selected gameType 0 selected with _ | qs
    · simp [hsel, hq] at h
    · simp only [hsel, hq, Option.some.injEq, Except.ok.injEq] at h
      rw [← h, buildQuestions_length _ _ _ _ _ _ _ hq]
      exact selectRandomCountries_length _ _ _ _ h0 hsel

/-- A create handler call that answers 200: the summary and the stored room. -/
theorem createRoomHandler_success
    (gen : Int → String → Except String (List Question)) (draw : Nat) (s : Server)
    (req : CreateRoomRequest) (hostUsername : String) (summary : RoomSummary)
    (hok : (createRoomHandler gen draw s ⟨"POST", some (req, hostUsername)⟩).2 =
      Response.success summary) :
    ∃ questions, gen req.NumQuestions req.GameType = Except.ok questions ∧
      ValidateCreateRoomRequest req = none ∧
      summary.numQuestions = (questions.length : Int) ∧
      summary.timeLimit = req.TimeLimit ∧
      summary.code = generateRoomID draw ∧
      (createRoomHandler gen draw s ⟨"POST", some (req, hostUsername)⟩).1.rooms =
        mapSet s.rooms (generateRoomID draw) s.nextRoom ∧
      (createRoomHandler gen draw s ⟨"POST", some (req, hostUsername)⟩).1.roomHeap s.nextRoom =
        { Code := generateRoomID draw, Hostname := hostUsername, Players := [],
          Questions := some (storeQuestions 0 questions []), Start := false,
          TimeLimit := req.TimeLimit, GameMode := req.GameType } := by
  rcases hv : ValidateCreateRoomRequest req with _ | err
  · by_cases hc : mapLen s.rooms ≥ 10
    · simp [createRoomHandler, hv, hc] at hok
    · by_cases hh : hostUsername = ""
      · simp [createRoomHandler, hv, hc, hh] at hok
      · rcases hq : gen req.NumQuestions req.GameType with e | qs
        · simp [createRoomHandler, hv, hc, hh, hq] at hok
        · simp only [createRoomHandler, ne_eq, not_true_eq_false, if_false, hv, hc, hh, hq,
            Response.success.injEq] at hok
          refine ⟨qs, rfl, rfl, ?_, ?_, ?_, ?_, ?_⟩
          · rw [← hok]
          · rw [← hok]
          · rw [← hok]
          · simp only [createRoomHandler, ne_eq, not_true_eq_false, if_false, hv, hc, hh, hq]
          · simp only [createRoomHandler, ne_eq, not_true_eq_false, if_false, hv, hc, hh, hq,
              Function.update_same]
  · simp [createRoomHandler, hv] at hok

/-- C16, as stated, fails: the request passes validation and asks for 10
questions, the dataset has three countries; `generateQuestions` returns three
questions, the handler answers 200 with `numQuestions` 3, and the room it stores
has three questions. -/
theorem created_room_has_fewer_questions_on_small_dataset :
    ValidateCreateRoomRequest ⟨5, 10, "MCQ"⟩ = none ∧
    (createRoomHandler (questionSource (.ok threeCountries) zeroDraws slashJoin) 42 Server.start
        ⟨"POST", some (⟨5, 10, "MCQ"⟩, "host")⟩).2 =
      Response.success ⟨"42", "host", [], some false, 5, 3, some "MCQ"⟩ ∧
    ((createRoomHandler (questionSource (.ok threeCountries) zeroDraws slashJoin) 42
      Server.start ⟨"POST", some (⟨5, 10, "MCQ"⟩, "host")⟩).1.roomHeap 0).numQuestions = 3 ∧
    mapGet (createRoomHandler (questionSource (.ok threeCountries) zeroDraws slashJoin) 42
      Server.start ⟨"POST", some (⟨5, 10, "MCQ"⟩, "host")⟩).1.rooms "42" = some 0 := by
  decide

/-- C16, amended: when the request passes validation and `generateQuestions`
returns on the dataset it reads, the room that `createRoomHandler` returns has
`numQuestions`, in the answer and in the stored room, equal to the smaller of
the request's `NumQuestions` and the number of rows of the dataset, hence equal
to `NumQuestions` whenever the dataset has that many rows; and its `timeLimit`
is the request's `TimeLimit`, which lies in `[3,10]`. -/
theorem created_room_counts (gen : Int → String → Except String (List Question)) (draw : Nat)
    (s : Server) (req : CreateRoomRequest) (hostUsername : String)
    (rows : List (List String)) (draws : QuestionDraws)
    (filepathJoin : String → String → String) (summary : RoomSummary)
    (hgen : generateQuestions (.ok rows) draws filepathJoin req.NumQuestions req.GameType =
      some (gen req.NumQuestions req.GameType))
    (hok : (createRoomHandler gen draw s ⟨"POST", some (req, hostUsername)⟩).2 =
      Response.success summary) :
    summary.numQuestions = min req.NumQuestions (rows.length : Int) ∧
    ((createRoomHandler gen draw s ⟨"POST", some (req, hostUsername)⟩).1.roomHeap
      s.nextRoom).numQuestions = min req.NumQuestions (rows.length : Int) ∧
    mapGet (createRoomHandler gen draw s ⟨"POST", some (req, hostUsername)⟩).1.rooms
      summary.code = some s.nextRoom ∧
    ((rows.length : Int) ≥ req.NumQuestions →
      summary.numQuestions = req.NumQuestions ∧
      ((createRoomHandler gen draw s ⟨"POST", some (req, hostUsername)⟩).1.roomHeap
        s.nextRoom).numQuestions = req.NumQuestions) ∧
    summary.timeLimit = req.TimeLimit ∧
    ((createRoomHandler gen draw s ⟨"POST", some (req, hostUsername)⟩).1.roomHeap
      s.nextRoom).TimeLimit = req.TimeLimit ∧
    3 ≤ req.TimeLimit ∧ req.TimeLimit ≤ 10 := by
  obtain ⟨questions, hq, hv, hnum, htime, hcode, hrooms, hroom⟩ :=
    createRoomHandler_success gen draw s req hostUsername summary hok
  obtain ⟨⟨ht1, ht2⟩, ⟨hn1, _⟩, _⟩ := (validate_none_iff req).mp hv
  rw [hq] at hgen
  have hlen := generateQuestions_length rows draws filepathJoin req.NumQuestions req.GameType
    questions (by omega) hgen
  have hstored : ((createRoomHandler gen draw s ⟨"POST", some (req, hostUsername)⟩).1.roomHeap
      s.nextRoom).numQuestions = (questions.length : Int) := by
    rw [hroom]
    exact (wellStored_of_storeQuestions _ questions rfl).2
  refine ⟨by rw [hnum, hlen], by rw [hstored, hlen], ?_, ?_, htime, by rw [hroom], ht1, ht2⟩
  · rw [hrooms, hcode]
    exact mapGet_mapSet_self _ _ _
  · intro hbig
    rw [hnum, hstored, hlen, min_eq_left hbig]
    exact ⟨rfl, rfl⟩

theorem created_room_counts_witness :
    ((createRoomHandler (questionSource (.ok tenCountries) zeroDraws slashJoin) 42 Server.start
      ⟨"POST", some (⟨5, 10, "MCQ"⟩, "host")⟩).1.roomHeap Server.start.nextRoom).numQuestions =
      10 :=
  ((created_room_counts (questionSource (.ok tenCountries) zeroDraws slashJoin) 42 Server.start
    ⟨5, 10, "MCQ"⟩ "host" tenCountries zeroDraws slashJoin
    ⟨"42", "host", [], some false, 5, 10, some "MCQ"⟩ rfl (by decide)).2.2.2.1 (by decide)).2

/-! ## The shape of a username -/

/-- The shape check of the pre-check reads `len(req.Username)`, the number of
bytes of the UTF-8 encoding. -/
theorem joinRoomHandler_shape (equalFold : String → String → Bool) (s : Server)
    (username roomID : String) :
    joinRoomHandler equalFold s ⟨"POST", some (username, roomID)⟩ =
        Response.failure 400 "Username must be between 4 and 20 characters" ↔
      (username.utf8ByteSize < 4 ∨ username.utf8ByteSize > 20) := by
  have hempty : username = "" → username.utf8ByteSize < 4 := by
    intro h
    subst h
    decide
  by_cases hshape : username = "" ∨ username.utf8ByteSize < 4 ∨ username.utf8ByteSize > 20
  · simp only [joinRoomHandler, ne_eq, not_true_eq_false, if_false, hshape, if_true, true_iff]
    rcases hshape with h | h | h
    · exact Or.inl (hempty h)
    · exact Or.inl h
    · exact Or.inr h
  · have hno : ¬ (username.utf8ByteSize < 4 ∨ username.utf8ByteSize > 20) :=
      fun h => hshape (Or.inr h)
    refine ⟨fun h => ?_, fun h => absurd h hno⟩
    exfalso
    simp only [joinRoomHandler, ne_eq, not_true_eq_false, if_false, if_neg hshape] at h
    by_cases hid : roomID = ""
    · simp [hid] at h
    · simp only [hid, if_false] at h
      rcases hget : mapGet s.rooms roomID with _ | ref
      · simp [hget] at h
      · simp only [hget] at h
        split_ifs at h <;> simp at h

/-- C13, the code on multi-byte usernames: a username of 3 characters that takes
9 bytes passes the shape check and is accepted with 200, and a username of 20
characters that takes 40 bytes is rejected with 400, because the check counts
bytes, not characters. -/
theorem join_shape_check_counts_bytes :
    "日本語".length = 3 ∧ "日本語".utf8ByteSize = 9 ∧
    (joinRoomHandler asciiFold (quizServer [(1, 0)] false)
      ⟨"POST", some ("日本語", "42")⟩).status = 200 ∧
    "éééééééééééééééééééé".length = 20 ∧ "éééééééééééééééééééé".utf8ByteSize = 40 ∧
    joinRoomHandler asciiFold (quizServer [(1, 0)] false)
        ⟨"POST", some ("éééééééééééééééééééé", "42")⟩ =
      Response.failure 400 "Username must be between 4 and 20 characters" := by
  decide

/-! ## Which room a deletion removes -/

/-- C17, the code when two rooms meet under one code.  After `overwriteRun` the
registry maps 42 to room B (address 1) with bert in it, while anna still holds
room A (address 0); when anna leaves, A has no player left and
`delete(rooms, roomID)` removes the entry of B.  After `reuseRun` the registry
maps 42 to room B with bert in it and A is no longer registered; when the timer
of A expires, `delete(rooms, room.Code)` removes the entry of B.  In both runs
B keeps its player and is gone from the registry. -/
theorem deletion_by_code_removes_another_room :
    (run Server.start overwriteRun).rooms = [("42", 1)] ∧
    ((run Server.start overwriteRun).roomHeap 1).Players = [(2, 1)] ∧
    ((run Server.start overwriteRun).roomHeap 0).Players = [(1, 0)] ∧
    (run Server.start (overwriteRun ++ [annaLeaves])).rooms = [] ∧
    ((run Server.start (overwriteRun ++ [annaLeaves])).roomHeap 1).Players = [(2, 1)] ∧
    (run Server.start reuseRun).rooms = [("42", 1)] ∧
    ((run Server.start reuseRun).roomHeap 1).Players = [(2, 1)] ∧
    ((run Server.start reuseRun).roomHeap 0).Start = true ∧
    (run Server.start (reuseRun ++ [Op.timer (fun _ => true) 0])).rooms = [] ∧
    ((run Server.start (reuseRun ++ [Op.timer (fun _ => true) 0])).roomHeap 1).Players =
      [(2, 1)] := by
  decide

/-! ## Room codes are not empty -/

theorem toDigitsCore_ne_nil : ∀ (fuel n : Nat) (ds : List Char), (0 < fuel ∨ ds ≠ []) →
    Nat.toDigitsCore 10 fuel n ds ≠ [] := by
  intro fuel
  induction fuel with
  | zero =>
    intro n ds h
    rcases h with h | h
    · omega
    · simpa [Nat.toDigitsCore] using h
  | succ fuel ih =>
    intro n ds _
    unfold Nat.toDigitsCore
    simp only
    split_ifs
    · simp
    · exact ih _ _ (Or.inr (by simp))

/-- `generateRoomID` never returns the empty string. -/
theorem generateRoomID_ne_empty (draw : Nat) : generateRoomID draw ≠ "" := by
  intro h
  have h1 : (Nat.toDigits 10 (draw % 10000)).asString = "" := h
  have h2 : Nat.toDigits 10 (draw % 10000) = [] := congrArg String.data h1
  exact toDigitsCore_ne_nil _ _ [] (Or.inl (by omega)) h2

theorem RegistrySub.codes {s t : Server} (h : RegistrySub s t) (hs : RegistryCodes s) :
    RegistryCodes t :=
  fun k hk => hs k ((List.Sublist.map Prod.fst h).subset hk)

theorem createRoomHandler_registryCodes
    (gen : Int → String → Except String (List Question)) (draw : Nat) (s : Server)
    (call : CreateRoomCall) (hs : RegistryCodes s) :
    RegistryCodes (createRoomHandler gen draw s call).1 := by
  rcases createRoomHandler_cases gen draw s call with ⟨h1, _⟩ | ⟨_, _, _, _, _, h2⟩
  · rw [h1]; exact hs
  · rw [h2]
    intro k hk
    simp only at hk
    rw [mapKeys_mapSet] at hk
    split_ifs at hk
    · exact hs k hk
    · rcases List.mem_append.mp hk with hk | hk
      · exact hs k hk
      · rw [List.mem_singleton.mp hk]
        exact generateRoomID_ne_empty draw

theorem step_registryCodes (s : Server) (op : Op) (hs : RegistryCodes s) :
    RegistryCodes (step s op) := by
  cases op with
  | create gen draw call => exact createRoomHandler_registryCodes gen draw s call hs
  | connect ok draw conn first =>
    exact (RegistrySub.of_rooms_eq (handshake_rooms ok draw s conn first)).codes hs
  | message ok ss message => exact (handleMessage_registrySub ok s ss message).codes hs
  | broadcast ok room msg => exact (broadcastToRoom_registrySub ok s room msg).codes hs
  | timer ok room => exact (gameTimer_registrySub ok s room).codes hs
  | cleanup => exact (cleanupEmptyRooms_registrySub s).codes hs

/-- In every state reached from the start state no room is registered under the
empty code. -/
theorem run_registryCodes (ops : List Op) :
    ∀ s : Server, RegistryCodes s → RegistryCodes (run s ops) := by
  induction ops with
  | nil => intro s hs; exact hs
  | cons op rest ih =>
    intro s hs
    exact ih _ (step_registryCodes s op hs)

/-! ## The join pre-check on a name with multi-byte characters -/

/-- C12, the code on a well-shaped name with multi-byte characters.  After
`accentRun` the room under the code 42 exists, is not started and holds two
players, one of them under the name `accentName`, which has 20 characters.  A
join request with that very name is not answered 409 but 400, for every
`strings.EqualFold`, because the shape check counts its 40 bytes; and after
that player has left, the same request is not accepted either, it is answered
400 again. -/
theorem join_conflict_check_unreached_on_multibyte_name :
    accentName.length = 20 ∧ accentName.utf8ByteSize = 40 ∧
    mapGet (run Server.start accentRun).rooms "42" = some 0 ∧
    ((run Server.start accentRun).roomHeap 0).Start = false ∧
    ((run Server.start accentRun).roomHeap 0).Players = [(1, 0), (2, 1)] ∧
    ((run Server.start accentRun).playerHeap 0).Username = accentName ∧
    (∀ equalFold : String → String → Bool,
      joinRoomHandler equalFold (run Server.start accentRun)
          ⟨"POST", some (accentName, "42")⟩ =
        Response.failure 400 "Username must be between 4 and 20 characters") ∧
    mapGet (run Server.start (accentRun ++ [accentLeaves])).rooms "42" = some 0 ∧
    ((run Server.start (accentRun ++ [accentLeaves])).roomHeap 0).Players = [(2, 1)] ∧
    (∀ equalFold : String → String → Bool,
      joinRoomHandler equalFold (run Server.start (accentRun ++ [accentLeaves]))
          ⟨"POST", some (accentName, "42")⟩ =
        Response.failure 400 "Username must be between 4 and 20 characters") := by
  refine ⟨by decide, by decide, by decide, by decide, by decide, by decide, fun equalFold => ?_,
    by decide, by decide, fun equalFold => ?_⟩
  · exact (joinRoomHandler_shape equalFold _ accentName "42").mpr (Or.inr (by decide))
  · exact (joinRoomHandler_shape equalFold _ accentName "42").mpr (Or.inr (by decide))

end Flags
